import Mathlib

/-!
Verification of `source/filter_blacklisted_ranges.cpp` (arriba blacklist filter stage).

The C++ source is shallowly embedded below: machine integers (`position_t`, i.e. C `int`)
become `Int`; `float`/`double` arithmetic on small integer quotients becomes exact `Rat`
arithmetic (the only float operations are quotients of small integers compared against
constants, where IEEE rounding cannot flip the comparisons at the scales involved);
`istringstream` extraction is modelled by an explicit stream state (`Iss`) with a sticky
failure flag covering `eofbit`/`failbit`; `unordered_map`/`set` containers become
association functions and duplicate-free lists.  Fallible parsing returns `Option`.
-/

set_option linter.unusedVariables false

-- ---------------------------------------------------------------------------
-- Data model.  The types below are declared in common.hpp / annotation.hpp,
-- which are not part of this repository snapshot; they are modelled from the
-- spec (section 3, DATA MODEL).
-- ---------------------------------------------------------------------------

-- Modelled from the spec: `contig_t` (an opaque equality-comparable, hashable
-- identifier for a reference sequence) is modelled as Nat, and `position_t`
-- (a signed integer genomic coordinate) as Int; common.hpp is not under src/.

/-- Modelled from the spec: `strand_t` with values FORWARD and REVERSE
(common.hpp is not under src/). -/
inductive strand_t
| FORWARD
| REVERSE
deriving DecidableEq, Inhabited

/-- Modelled from the spec: `direction_t` with values UPSTREAM and DOWNSTREAM
(common.hpp is not under src/). -/
inductive direction_t
| UPSTREAM
| DOWNSTREAM
deriving DecidableEq, Inhabited

/-- Modelled from the spec: a gene annotation record (annotation.hpp is not under
src/): contig, start, end.  `gene_t` in the source is a non-owning pointer to such
a record; pointer identity is modelled by the `id` field. -/
structure gene_t where
  id : Nat
  contig : Nat
  start : Int
  end_ : Int
deriving DecidableEq, Inhabited

/-- Modelled from the spec: the fusion record from common.hpp (not under src/),
restricted to the fields read or written by filter_blacklisted_ranges.cpp.
The external method `is_read_through()` is modelled as the boolean field
`read_through_`; the filter tag (`const char*`, NULL when unfiltered) is modelled
as `Option String`. -/
structure fusion_t where
  contig1 : Nat
  contig2 : Nat
  breakpoint1 : Int
  breakpoint2 : Int
  predicted_strand1 : strand_t
  predicted_strand2 : strand_t
  predicted_strands_ambiguous : Bool
  direction1 : direction_t
  direction2 : direction_t
  gene1 : gene_t
  gene2 : gene_t
  split_reads1 : Nat
  split_reads2 : Nat
  discordant_mates : Nat
  evalue : Rat
  spliced1 : Bool
  spliced2 : Bool
  closest_genomic_breakpoint1 : Int
  read_through_ : Bool
  filter : Option String
deriving DecidableEq, Inhabited

/-- Modelled from the spec: the contig catalog (`contigs_t`, an unordered map
from contig name to contig id, declared outside src/), as an association list. -/
abbrev contigs_t := List (String × Nat)

/-- Modelled from the spec: the gene catalog (name to gene record, declared
outside src/), as an association list. -/
abbrev genes_t := List (String × gene_t)

-- Lookup in an association list, modelling unordered_map::find.
def map_find {α : Type} (m : List (String × α)) (k : String) : Option α :=
  match m with
  | [] => none
  | (k', v) :: t => if k' = k then some v else map_find t k

-- blacklist_item_type_t, filter_blacklisted_ranges.cpp line 17.
inductive blacklist_item_type_t
| BLACKLIST_RANGE
| BLACKLIST_POSITION
| BLACKLIST_GENE
| BLACKLIST_ANY
| BLACKLIST_SPLIT_READ_DONOR
| BLACKLIST_SPLIT_READ_ACCEPTOR
| BLACKLIST_SPLIT_READ_ANY
| BLACKLIST_DISCORDANT_MATES
| BLACKLIST_READ_THROUGH
| BLACKLIST_LOW_SUPPORT
| BLACKLIST_FILTER_SPLICED
| BLACKLIST_NOT_BOTH_SPLICED
deriving DecidableEq, Inhabited

-- blacklist_item_t, filter_blacklisted_ranges.cpp lines 18-26.  In C++ the
-- struct is default-constructed with indeterminate fields; parse functions take
-- the pre-existing item explicitly so that unset junk fields stay visible.
structure blacklist_item_t where
  type : blacklist_item_type_t
  strand_defined : Bool
  strand : strand_t
  contig : Nat
  start : Int
  end_ : Int
  gene : gene_t
deriving DecidableEq, Inhabited

-- FILTERS.at("blacklist"), the fixed filter reason written on a match.
def blacklist_filter_tag : Option String := some ("blacklist")

-- ---------------------------------------------------------------------------
-- istringstream model: a character buffer plus one sticky failure flag that
-- covers eofbit and failbit (both make later extractions fail, and
-- istringstream::str(s) resets the buffer but not the state flags).
-- ---------------------------------------------------------------------------

structure Iss where
  buf : List Char
  bad : Bool
deriving DecidableEq

def isWs (c : Char) : Bool := decide (c = ' ') || decide (c = '\t')

-- Extraction of one whitespace-delimited token (operator>> on std::string):
-- skip whitespace, then take characters up to the next whitespace.  Extracting
-- nothing sets failbit; running to the end of the buffer sets eofbit.
def Iss.readToken (iss : Iss) : List Char × Iss :=
  if iss.bad then ([], iss)
  else
    let l := iss.buf.dropWhile isWs
    let tok := l.takeWhile (fun c => !isWs c)
    let rest := l.dropWhile (fun c => !isWs c)
    if tok.isEmpty then ([], { buf := rest, bad := true })
    else (tok, { buf := rest, bad := rest.isEmpty })

-- Positional value of a digit string.
def digitsVal (l : List Char) : Nat :=
  l.foldl (fun acc c => acc * 10 + (c.toNat - ('0').toNat)) 0

def splitSign : List Char → Int × List Char
  | [] => (1, [])
  | c :: t => if c = '-' then (-1, t) else if c = '+' then (1, t) else (1, c :: t)

-- Extraction of an int (operator>> on int): skip whitespace, optional sign,
-- one or more digits; no digits sets failbit (failure), consuming the final
-- buffer character sets eofbit (sticky for later extractions).
def Iss.readInt (iss : Iss) : Option (Int × Iss) :=
  if iss.bad then none
  else
    let l := iss.buf.dropWhile isWs
    let p := splitSign l
    let ds := p.2.takeWhile Char.isDigit
    let rest := p.2.dropWhile Char.isDigit
    if ds.isEmpty then none
    else some (p.1 * (digitsVal ds : Int), { buf := rest, bad := rest.isEmpty })

-- std::replace over the character sequence.
def replaceChar (c d : Char) (l : List Char) : List Char :=
  l.map (fun x => if x = c then d else x)

-- ---------------------------------------------------------------------------
-- parse_range, filter_blacklisted_ranges.cpp lines 29-81.
-- ---------------------------------------------------------------------------

def parse_range (range0 : String) (contigs : contigs_t) (item0 : blacklist_item_t) :
    Option blacklist_item_t :=
  let range : List Char := replaceChar ':' ' ' range0.toList
  let iss0 : Iss := { buf := range, bad := false }
  let r1 := iss0.readToken
  let tok := r1.1
  let iss1 := r1.2
  if tok.isEmpty then none
  else
    let pr : blacklist_item_t × List Char :=
      match tok with
      | [] => ({ item0 with strand_defined := false }, tok)
      | c :: t =>
        if c = '+' then ({ item0 with strand_defined := true, strand := strand_t.FORWARD }, t)
        else if c = '-' then ({ item0 with strand_defined := true, strand := strand_t.REVERSE }, t)
        else ({ item0 with strand_defined := false }, tok)
    let item1 := pr.1
    let contig_name := pr.2
    match map_find contigs (String.mk contig_name) with
    | none => none
    | some c =>
      let item2 := { item1 with contig := c }
      if range.contains '-' then
        let range2 := replaceChar '-' ' ' range
        let iss2 : Iss := { buf := range2, bad := iss1.bad }
        let r2 := iss2.readToken
        match r2.2.readInt with
        | none => none
        | some (s, iss4) =>
          match iss4.readInt with
          | none => none
          | some (e, _) => some { item2 with start := s - 1, end_ := e - 1 }
      else
        match iss1.readInt with
        | none => none
        | some (s, _) => some { item2 with start := s - 1, end_ := s - 1 }

-- ---------------------------------------------------------------------------
-- parse_blacklist_item, filter_blacklisted_ranges.cpp lines 84-116.
-- ---------------------------------------------------------------------------

def keyword_item (text : String) (item0 : blacklist_item_t) : Option blacklist_item_t :=
  if text = ("any") then some { item0 with type := blacklist_item_type_t.BLACKLIST_ANY }
  else if text = ("split_read_donor") then
    some { item0 with type := blacklist_item_type_t.BLACKLIST_SPLIT_READ_DONOR }
  else if text = ("split_read_acceptor") then
    some { item0 with type := blacklist_item_type_t.BLACKLIST_SPLIT_READ_ACCEPTOR }
  else if text = ("split_read_any") then
    some { item0 with type := blacklist_item_type_t.BLACKLIST_SPLIT_READ_ANY }
  else if text = ("discordant_mates") then
    some { item0 with type := blacklist_item_type_t.BLACKLIST_DISCORDANT_MATES }
  else if text = ("read_through") then
    some { item0 with type := blacklist_item_type_t.BLACKLIST_READ_THROUGH }
  else if text = ("low_support") then
    some { item0 with type := blacklist_item_type_t.BLACKLIST_LOW_SUPPORT }
  else if text = ("filter_spliced") then
    some { item0 with type := blacklist_item_type_t.BLACKLIST_FILTER_SPLICED }
  else if text = ("not_both_spliced") then
    some { item0 with type := blacklist_item_type_t.BLACKLIST_NOT_BOTH_SPLICED }
  else none

def parse_blacklist_item (text : String) (contigs : contigs_t) (genes : genes_t)
    (allow_keyword : Bool) (item0 : blacklist_item_t) : Option blacklist_item_t :=
  match (if allow_keyword then keyword_item text item0 else none) with
  | some item => some item
  | none =>
    match map_find genes text with
    | some g =>
      some { item0 with type := blacklist_item_type_t.BLACKLIST_GENE, gene := g,
                        contig := g.contig, start := g.start, end_ := g.end_ }
    | none =>
      match parse_range text contigs item0 with
      | some item =>
        if item.start = item.end_ then
          some { item with type := blacklist_item_type_t.BLACKLIST_POSITION }
        else
          some { item with type := blacklist_item_type_t.BLACKLIST_RANGE }
      | none => none

-- ---------------------------------------------------------------------------
-- overlapping_fraction, filter_blacklisted_ranges.cpp lines 119-129.
-- ---------------------------------------------------------------------------

def overlapping_fraction (start1 end1 start2 end2 : Int) : Rat :=
  if start1 ≥ start2 ∧ end1 ≤ end2 then 1
  else if start1 ≥ start2 ∧ start1 ≤ end2 then
    ((start1 - start2 : Int) : Rat) / ((end1 - start1 + 1 : Int) : Rat)
  else if end1 ≥ start2 ∧ end1 ≤ end2 then
    ((end2 - end1 : Int) : Rat) / ((end1 - start1 + 1 : Int) : Rat)
  else 0

-- Mathematical overlap fraction stated by the spec: (intersection length) /
-- (gene length) on inclusive integer ranges.  This is the comparison point for
-- the spec claim about overlapping_fraction, not a translation of the source.
def spec_overlap_fraction (start1 end1 start2 end2 : Int) : Rat :=
  ((max 0 (min end1 end2 - max start1 start2 + 1) : Int) : Rat) /
    ((end1 - start1 + 1 : Int) : Rat)

-- ---------------------------------------------------------------------------
-- matches_blacklist_item, filter_blacklisted_ranges.cpp lines 132-217.
-- ---------------------------------------------------------------------------

def matches_blacklist_item (blacklist_item : blacklist_item_t) (fusion : fusion_t)
    (which_breakpoint : Nat) (evalue_cutoff : Rat) (max_mate_gap : Int) : Bool :=
  match blacklist_item.type with
  | blacklist_item_type_t.BLACKLIST_ANY => true
  | blacklist_item_type_t.BLACKLIST_SPLIT_READ_DONOR =>
    (which_breakpoint == 1 && fusion.discordant_mates + fusion.split_reads1 == 0) ||
    (which_breakpoint == 2 && fusion.discordant_mates + fusion.split_reads2 == 0)
  | blacklist_item_type_t.BLACKLIST_SPLIT_READ_ACCEPTOR =>
    (which_breakpoint == 1 && fusion.discordant_mates + fusion.split_reads2 == 0) ||
    (which_breakpoint == 2 && fusion.discordant_mates + fusion.split_reads1 == 0)
  | blacklist_item_type_t.BLACKLIST_SPLIT_READ_ANY =>
    fusion.discordant_mates == 0
  | blacklist_item_type_t.BLACKLIST_DISCORDANT_MATES =>
    fusion.split_reads1 + fusion.split_reads2 == 0
  | blacklist_item_type_t.BLACKLIST_READ_THROUGH =>
    fusion.read_through_
  | blacklist_item_type_t.BLACKLIST_LOW_SUPPORT =>
    decide (fusion.evalue > evalue_cutoff)
  | blacklist_item_type_t.BLACKLIST_FILTER_SPLICED =>
    decide (fusion.evalue > evalue_cutoff) && fusion.spliced1 && fusion.spliced2
  | blacklist_item_type_t.BLACKLIST_NOT_BOTH_SPLICED =>
    !fusion.spliced1 || !fusion.spliced2
  | blacklist_item_type_t.BLACKLIST_GENE =>
    (which_breakpoint == 1 && decide (fusion.gene1 = blacklist_item.gene)) ||
    (which_breakpoint == 2 && decide (fusion.gene2 = blacklist_item.gene))
  | blacklist_item_type_t.BLACKLIST_POSITION =>
    let contig := if which_breakpoint == 1 then fusion.contig1 else fusion.contig2
    if contig ≠ blacklist_item.contig then false
    else if blacklist_item.strand_defined && !fusion.predicted_strands_ambiguous &&
        decide ((if which_breakpoint == 1 then fusion.predicted_strand1
                 else fusion.predicted_strand2) ≠ blacklist_item.strand) then false
    else
      let breakpoint := if which_breakpoint == 1 then fusion.breakpoint1 else fusion.breakpoint2
      if breakpoint = blacklist_item.start then true
      else if fusion.split_reads1 + fusion.split_reads2 == 0 then
        let direction := if which_breakpoint == 1 then fusion.direction1 else fusion.direction2
        (decide (direction = direction_t.DOWNSTREAM) &&
         decide (breakpoint ≤ blacklist_item.start) &&
         decide (breakpoint ≥ blacklist_item.start - max_mate_gap)) ||
        (decide (direction = direction_t.UPSTREAM) &&
         decide (breakpoint ≥ blacklist_item.start) &&
         decide (breakpoint ≤ blacklist_item.start + max_mate_gap))
      else false
  | blacklist_item_type_t.BLACKLIST_RANGE =>
    let contig := if which_breakpoint == 1 then fusion.contig1 else fusion.contig2
    if contig ≠ blacklist_item.contig then false
    else if blacklist_item.strand_defined && !fusion.predicted_strands_ambiguous &&
        decide ((if which_breakpoint == 1 then fusion.predicted_strand1
                 else fusion.predicted_strand2) ≠ blacklist_item.strand) then false
    else
      let gene := if which_breakpoint == 1 then fusion.gene1 else fusion.gene2
      decide (overlapping_fraction gene.start gene.end_ blacklist_item.start blacklist_item.end_
        > (0.5 : Rat))

-- ---------------------------------------------------------------------------
-- get_index_keys_from_range, filter_blacklisted_ranges.cpp lines 220-224.
-- C++ `/` on int truncates toward zero, hence Int.tdiv.
-- ---------------------------------------------------------------------------

def get_index_keys_from_range (contig : Nat) (start end_ : Int) :
    List (Nat × Int) :=
  let bucket_size : Int := 100000
  let lo := start.tdiv bucket_size
  let hi := (end_ + bucket_size - 1).tdiv bucket_size
  (List.range (hi - lo + 1).toNat).map (fun (i : Nat) => (contig, (lo + (i : Int)) * bucket_size))

-- ---------------------------------------------------------------------------
-- filter_blacklisted_ranges, filter_blacklisted_ranges.cpp lines 226-295.
-- Fusion collection: list of records; a fusion_t* is modelled by its index.
-- fusions_by_coordinate: function from bucket key to the (duplicate-free,
-- index-ordered) list of member fusions; a missing key maps to [].
-- ---------------------------------------------------------------------------

structure FilterState where
  fusions : List fusion_t
  index : Nat × Int → List Nat

-- Ordered duplicate-free insertion, modelling set<fusion_t*>::insert.
def set_insert (n : Nat) : List Nat → List Nat
  | [] => [n]
  | m :: t => if n < m then n :: m :: t else if n = m then m :: t else m :: set_insert n t

-- Index keys registered for one fusion (lines 237-241): breakpoint1,
-- breakpoint2, gene1 span, gene2 span.
def fusion_index_keys (f : fusion_t) : List (Nat × Int) :=
  get_index_keys_from_range f.contig1 f.breakpoint1 f.breakpoint1 ++
  get_index_keys_from_range f.contig2 f.breakpoint2 f.breakpoint2 ++
  get_index_keys_from_range f.contig1 f.gene1.start f.gene1.end_ ++
  get_index_keys_from_range f.contig2 f.gene2.start f.gene2.end_

-- Line 232: already-filtered fusions without the genomic-support marker are
-- not indexed.
def fusion_skipped_in_index (f : fusion_t) : Bool :=
  f.filter.isSome && decide (f.closest_genomic_breakpoint1 < 0)

def index_insert_keys (i : Nat) (keys : List (Nat × Int)) (idx : Nat × Int → List Nat) :
    Nat × Int → List Nat :=
  keys.foldl (fun idx key => fun k => if k = key then set_insert i (idx k) else idx k) idx

def build_index (fusions : List fusion_t) : Nat × Int → List Nat :=
  fusions.enum.foldl
    (fun idx p =>
      if fusion_skipped_in_index p.2 then idx
      else index_insert_keys p.1 (fusion_index_keys p.2) idx)
    (fun _ => [])

-- Line-level match decision, lines 275-278 (order-symmetric pairing).
def line_matches (item1 item2 : blacklist_item_t) (ec : Rat) (mmg : Int) (f : fusion_t) : Bool :=
  (matches_blacklist_item item1 f 1 ec mmg && matches_blacklist_item item2 f 2 ec mmg) ||
  (matches_blacklist_item item1 f 2 ec mmg && matches_blacklist_item item2 f 1 ec mmg)

def coordinate_item (item : blacklist_item_t) : Bool :=
  decide (item.type = blacklist_item_type_t.BLACKLIST_POSITION) ||
  decide (item.type = blacklist_item_type_t.BLACKLIST_RANGE) ||
  decide (item.type = blacklist_item_type_t.BLACKLIST_GENE)

-- Query keys of one compiled line, lines 266-270 (each coordinate-bearing item
-- expanded by max_mate_gap on both ends).
def line_query_keys (item1 item2 : blacklist_item_t) (mmg : Int) : List (Nat × Int) :=
  (if coordinate_item item1 then
    get_index_keys_from_range item1.contig (item1.start - mmg) (item1.end_ + mmg)
  else []) ++
  (if coordinate_item item2 then
    get_index_keys_from_range item2.contig (item2.start - mmg) (item2.end_ + mmg)
  else [])

-- Iteration over one bucket's member list with erase-current-and-continue
-- (lines 274-284): matching members are tagged and dropped from the bucket.
def iterate_set (item1 item2 : blacklist_item_t) (ec : Rat) (mmg : Int) :
    List Nat → List fusion_t → List Nat × List fusion_t
  | [], fs => ([], fs)
  | i :: t, fs =>
    match fs[i]? with
    | some f =>
      if line_matches item1 item2 ec mmg f then
        iterate_set item1 item2 ec mmg t (fs.set i { f with filter := blacklist_filter_tag })
      else
        let r := iterate_set item1 item2 ec mmg t fs
        (i :: r.1, r.2)
    | none =>
      let r := iterate_set item1 item2 ec mmg t fs
      (i :: r.1, r.2)

def process_key (item1 item2 : blacklist_item_t) (ec : Rat) (mmg : Int)
    (st : FilterState) (key : Nat × Int) : FilterState :=
  let r := iterate_set item1 item2 ec mmg (st.index key) st.fusions
  { fusions := r.2, index := fun k => if k = key then r.1 else st.index k }

-- One blacklist line: comment skip (line 253), token extraction (line 259),
-- rule compilation (lines 261-263).
def parse_line (contigs : contigs_t) (genes : genes_t) (line : String) :
    Option (blacklist_item_t × blacklist_item_t) :=
  match line.toList with
  | [] => none
  | c :: _ =>
    if c = '#' then none
    else
      let iss0 : Iss := { buf := line.toList, bad := false }
      let r1 := iss0.readToken
      let r2 := r1.2.readToken
      match parse_blacklist_item (String.mk r1.1) contigs genes false default with
      | none => none
      | some item1 =>
        match parse_blacklist_item (String.mk r2.1) contigs genes true default with
        | none => none
        | some item2 => some (item1, item2)

def process_line (contigs : contigs_t) (genes : genes_t) (ec : Rat) (mmg : Int)
    (st : FilterState) (line : String) : FilterState :=
  match parse_line contigs genes line with
  | none => st
  | some (item1, item2) =>
    (line_query_keys item1 item2 mmg).foldl (process_key item1 item2 ec mmg) st

-- Whole stage: build index, stream lines, count survivors (filter still NULL).
def filter_blacklisted_ranges (fusions : List fusion_t) (blacklist_lines : List String)
    (contigs : contigs_t) (genes : genes_t) (evalue_cutoff : Rat) (max_mate_gap : Int) :
    List fusion_t × Nat :=
  let st0 : FilterState := { fusions := fusions, index := build_index fusions }
  let stN := blacklist_lines.foldl (process_line contigs genes evalue_cutoff max_mate_gap) st0
  (stN.fusions, stN.fusions.countP (fun f => f.filter.isNone))

-- ---------------------------------------------------------------------------
-- Derived predicates used to characterise the stage's effect per fusion.
-- ---------------------------------------------------------------------------

-- One line condemns a fusion when the line compiles, one of its query keys is
-- among the fusion's index keys, and the order-symmetric match decision holds.
def line_condemns (contigs : contigs_t) (genes : genes_t) (ec : Rat) (mmg : Int)
    (line : String) (f : fusion_t) : Bool :=
  match parse_line contigs genes line with
  | none => false
  | some (item1, item2) =>
    (line_query_keys item1 item2 mmg).any (fun k => (fusion_index_keys f).contains k) &&
    line_matches item1 item2 ec mmg f

def condemned (contigs : contigs_t) (genes : genes_t) (ec : Rat) (mmg : Int)
    (lines : List String) (f : fusion_t) : Bool :=
  lines.any (fun line => line_condemns contigs genes ec mmg line f)

-- One line evicts a fusion from bucket key k when the line compiles, queries k,
-- and the match decision holds.
def line_evicts (contigs : contigs_t) (genes : genes_t) (ec : Rat) (mmg : Int)
    (line : String) (k : Nat × Int) (f : fusion_t) : Bool :=
  match parse_line contigs genes line with
  | none => false
  | some (item1, item2) =>
    (line_query_keys item1 item2 mmg).contains k && line_matches item1 item2 ec mmg f

def evicted (contigs : contigs_t) (genes : genes_t) (ec : Rat) (mmg : Int)
    (lines : List String) (k : Nat × Int) (f : fusion_t) : Bool :=
  lines.any (fun line => line_evicts contigs genes ec mmg line k f)

-- Fusion tagged with the blacklist reason.
def tag_fusion (f : fusion_t) : fusion_t := { f with filter := blacklist_filter_tag }

-- Per-fusion effect of the whole stage (proved below in filter_char).
def stage_result (contigs : contigs_t) (genes : genes_t) (ec : Rat) (mmg : Int)
    (lines : List String) (f : fusion_t) : fusion_t :=
  if fusion_skipped_in_index f = false ∧ condemned contigs genes ec mmg lines f = true then
    tag_fusion f
  else f

-- Match status of the fusion stored at position j, as read during bucket
-- iteration.
def matched_at (item1 item2 : blacklist_item_t) (ec : Rat) (mmg : Int)
    (fs : List fusion_t) (j : Nat) : Bool :=
  match fs[j]? with
  | some f => line_matches item1 item2 ec mmg f
  | none => false

-- ---------------------------------------------------------------------------
-- Concrete sample data used by the witness theorems.
-- ---------------------------------------------------------------------------

def gene_900_1100 : gene_t := { id := 7, contig := 0, start := 900, end_ := 1100 }

def gene_far : gene_t := { id := 8, contig := 1, start := 499000, end_ := 501000 }

def sample_fusion : fusion_t :=
  { contig1 := 0, contig2 := 1, breakpoint1 := 1000, breakpoint2 := 500000,
    predicted_strand1 := strand_t.FORWARD, predicted_strand2 := strand_t.FORWARD,
    predicted_strands_ambiguous := false,
    direction1 := direction_t.DOWNSTREAM, direction2 := direction_t.UPSTREAM,
    gene1 := gene_900_1100, gene2 := gene_far,
    split_reads1 := 0, split_reads2 := 0, discordant_mates := 2,
    evalue := 1, spliced1 := false, spliced2 := false,
    closest_genomic_breakpoint1 := -1, read_through_ := false, filter := none }

def sample_range_item : blacklist_item_t :=
  { type := blacklist_item_type_t.BLACKLIST_RANGE, strand_defined := false,
    strand := strand_t.FORWARD, contig := 0, start := 800, end_ := 1200,
    gene := gene_900_1100 }

def sample_position_item : blacklist_item_t :=
  { type := blacklist_item_type_t.BLACKLIST_POSITION, strand_defined := false,
    strand := strand_t.FORWARD, contig := 0, start := 1000, end_ := 1000,
    gene := gene_900_1100 }

def sample_contigs : contigs_t := [("chr1", 0), ("chr2", 1)]

-- ---------------------------------------------------------------------------
-- Theorems.
-- ---------------------------------------------------------------------------

/-- C1: the claim states that overlapping_fraction returns (intersection length)
divided by (gene length).  The code contradicts this (and its own doc comment,
"returns the fraction of range1 that overlaps range2"): on a partial overlap at
the right edge it returns (start1 - start2) / (gene length) rather than the
intersection length over the gene length.  At gene [5,10] against range [0,7]
the code yields 5/6 while the intersection fraction is 3/6; at gene [100,101]
against range [0,100] it returns 50, which is not a fraction at all, and is not
monotone in the intersection length. -/
theorem c1_overlapping_fraction_deviates :
    overlapping_fraction 5 10 0 7 = 5 / 6 ∧
    spec_overlap_fraction 5 10 0 7 = 3 / 6 ∧
    overlapping_fraction 5 10 0 7 ≠ spec_overlap_fraction 5 10 0 7 ∧
    overlapping_fraction 100 101 0 100 = 50 ∧
    overlapping_fraction 0 10 0 10 = 1 ∧
    overlapping_fraction 0 5 10 20 = 0 := by
  unfold overlapping_fraction spec_overlap_fraction
  norm_num

/-- C2: for a RANGE blacklist item and a breakpoint passing the contig and
strand gating, matches_blacklist_item is true exactly when the overlap fraction
of the breakpoint's gene span with the item's range (as computed by
overlapping_fraction) is strictly greater than 0.5; a fraction of exactly 0.5
does not match. -/
theorem c2_range_match_iff_overlap_gt_half (item : blacklist_item_t) (f : fusion_t)
    (wb : Nat) (ec : Rat) (mmg : Int)
    (hty : item.type = blacklist_item_type_t.BLACKLIST_RANGE)
    (hwb : wb = 1 ∨ wb = 2)
    (hcontig : (if wb = 1 then f.contig1 else f.contig2) = item.contig)
    (hstrand : item.strand_defined = false ∨ f.predicted_strands_ambiguous = true ∨
      (if wb = 1 then f.predicted_strand1 else f.predicted_strand2) = item.strand) :
    (matches_blacklist_item item f wb ec mmg = true ↔
      overlapping_fraction (if wb = 1 then f.gene1 else f.gene2).start
        (if wb = 1 then f.gene1 else f.gene2).end_ item.start item.end_ > (0.5 : Rat)) ∧
    (overlapping_fraction (if wb = 1 then f.gene1 else f.gene2).start
        (if wb = 1 then f.gene1 else f.gene2).end_ item.start item.end_ = (0.5 : Rat) →
      matches_blacklist_item item f wb ec mmg = false) := by
  rcases hwb with rfl | rfl
  · norm_num at hcontig hstrand ⊢
    have key : matches_blacklist_item item f 1 ec mmg =
        decide (overlapping_fraction f.gene1.start f.gene1.end_ item.start item.end_
          > (0.5 : Rat)) := by
      simp only [matches_blacklist_item, hty]
      simp only [hcontig]
      rcases hstrand with h | h | h <;> simp [h]
    rw [key]
    refine ⟨by simp only [decide_eq_true_iff]; norm_num, fun heq => by simp [heq]; norm_num⟩
  · norm_num at hcontig hstrand ⊢
    have key : matches_blacklist_item item f 2 ec mmg =
        decide (overlapping_fraction f.gene2.start f.gene2.end_ item.start item.end_
          > (0.5 : Rat)) := by
      simp only [matches_blacklist_item, hty]
      simp only [hcontig]
      rcases hstrand with h | h | h <;> simp [h]
    rw [key]
    refine ⟨by simp only [decide_eq_true_iff]; norm_num, fun heq => by simp [heq]; norm_num⟩

/-- C4: for a POSITION blacklist item on the breakpoint's contig with compatible
(or undefined, or ambiguously predicted) strand, the item matches exactly when
the breakpoint equals item.start, or the fusion has zero split reads and the
predicted direction points at the item within max_mate_gap (DOWNSTREAM:
item.start - max_mate_gap <= breakpoint <= item.start; UPSTREAM: item.start <=
breakpoint <= item.start + max_mate_gap); in particular with zero split reads
and direction DOWNSTREAM an item at breakpoint + max_mate_gap matches and an
item at breakpoint + max_mate_gap + 1 does not. -/
theorem c4_position_matching (item : blacklist_item_t) (f : fusion_t)
    (wb : Nat) (ec : Rat) (mmg : Int)
    (hty : item.type = blacklist_item_type_t.BLACKLIST_POSITION)
    (hwb : wb = 1 ∨ wb = 2)
    (hcontig : (if wb = 1 then f.contig1 else f.contig2) = item.contig)
    (hstrand : item.strand_defined = false ∨ f.predicted_strands_ambiguous = true ∨
      (if wb = 1 then f.predicted_strand1 else f.predicted_strand2) = item.strand) :
    (matches_blacklist_item item f wb ec mmg = true ↔
      ((if wb = 1 then f.breakpoint1 else f.breakpoint2) = item.start ∨
       (f.split_reads1 + f.split_reads2 = 0 ∧
         (((if wb = 1 then f.direction1 else f.direction2) = direction_t.DOWNSTREAM ∧
           item.start - mmg ≤ (if wb = 1 then f.breakpoint1 else f.breakpoint2) ∧
           (if wb = 1 then f.breakpoint1 else f.breakpoint2) ≤ item.start) ∨
          ((if wb = 1 then f.direction1 else f.direction2) = direction_t.UPSTREAM ∧
           item.start ≤ (if wb = 1 then f.breakpoint1 else f.breakpoint2) ∧
           (if wb = 1 then f.breakpoint1 else f.breakpoint2) ≤ item.start + mmg))))) ∧
    (f.split_reads1 + f.split_reads2 = 0 →
      (if wb = 1 then f.direction1 else f.direction2) = direction_t.DOWNSTREAM →
      0 ≤ mmg →
      matches_blacklist_item
        { item with start := (if wb = 1 then f.breakpoint1 else f.breakpoint2) + mmg }
        f wb ec mmg = true ∧
      matches_blacklist_item
        { item with start := (if wb = 1 then f.breakpoint1 else f.breakpoint2) + mmg + 1 }
        f wb ec mmg = false) := by
  rcases hwb with rfl | rfl
  · norm_num at hcontig hstrand ⊢
    have key : ∀ s0 : Int,
        (matches_blacklist_item { item with start := s0 } f 1 ec mmg = true ↔
          (f.breakpoint1 = s0 ∨ (f.split_reads1 + f.split_reads2 = 0 ∧
            ((f.direction1 = direction_t.DOWNSTREAM ∧ s0 - mmg ≤ f.breakpoint1 ∧
              f.breakpoint1 ≤ s0) ∨
             (f.direction1 = direction_t.UPSTREAM ∧ s0 ≤ f.breakpoint1 ∧
              f.breakpoint1 ≤ s0 + mmg))))) := by
      intro s0
      simp only [matches_blacklist_item, hty]
      norm_num [hcontig]
      rcases hstrand with h | h | h <;>
        simp [h, decide_eq_true_iff, beq_iff_eq, ge_iff_le, and_assoc] <;>
        tauto
    have eta : { item with start := item.start } = item := rfl
    refine ⟨by simpa [eta] using key item.start, fun hsr1 hsr2 hdir hm => ?_⟩
    constructor
    · exact (key (f.breakpoint1 + mmg)).mpr
        (Or.inr ⟨by omega, Or.inl ⟨hdir, by omega, by omega⟩⟩)
    · cases hmv : matches_blacklist_item
        { item with start := f.breakpoint1 + mmg + 1 } f 1 ec mmg
      · rfl
      · exfalso
        rcases (key (f.breakpoint1 + mmg + 1)).mp hmv with h | ⟨-, h | h⟩
        · omega
        · omega
        · rw [hdir] at h
          exact absurd h.1 (by simp)
  · norm_num at hcontig hstrand ⊢
    have key : ∀ s0 : Int,
        (matches_blacklist_item { item with start := s0 } f 2 ec mmg = true ↔
          (f.breakpoint2 = s0 ∨ (f.split_reads1 + f.split_reads2 = 0 ∧
            ((f.direction2 = direction_t.DOWNSTREAM ∧ s0 - mmg ≤ f.breakpoint2 ∧
              f.breakpoint2 ≤ s0) ∨
             (f.direction2 = direction_t.UPSTREAM ∧ s0 ≤ f.breakpoint2 ∧
              f.breakpoint2 ≤ s0 + mmg))))) := by
      intro s0
      simp only [matches_blacklist_item, hty]
      norm_num [hcontig]
      rcases hstrand with h | h | h <;>
        simp [h, decide_eq_true_iff, beq_iff_eq, ge_iff_le, and_assoc] <;>
        tauto
    have eta : { item with start := item.start } = item := rfl
    refine ⟨by simpa [eta] using key item.start, fun hsr1 hsr2 hdir hm => ?_⟩
    constructor
    · exact (key (f.breakpoint2 + mmg)).mpr
        (Or.inr ⟨by omega, Or.inl ⟨hdir, by omega, by omega⟩⟩)
    · cases hmv : matches_blacklist_item
        { item with start := f.breakpoint2 + mmg + 1 } f 2 ec mmg
      · rfl
      · exfalso
        rcases (key (f.breakpoint2 + mmg + 1)).mp hmv with h | ⟨-, h | h⟩
        · omega
        · omega
        · rw [hdir] at h
          exact absurd h.1 (by simp)


/-- C8: for 0 <= start <= end, get_index_keys_from_range produces exactly the
keys (contig, k * 100000) for every integer k from floor(start/100000) through
ceil(end/100000) inclusive, in increasing order of k. -/
theorem c8_bucket_keys (contig : Nat) (s e : Int) (h0 : 0 ≤ s) (hse : s ≤ e) :
    (∀ key : Nat × Int, key ∈ get_index_keys_from_range contig s e ↔
      (key.1 = contig ∧ ∃ k : Int, ⌊(s : ℚ) / 100000⌋ ≤ k ∧ k ≤ ⌈(e : ℚ) / 100000⌉ ∧
        key.2 = k * 100000)) ∧
    List.Chain' (fun a b => a < b) ((get_index_keys_from_range contig s e).map Prod.snd) := by
  have ht1 : s.tdiv 100000 = s / 100000 := Int.tdiv_eq_ediv h0 (by norm_num)
  have ht2 : (e + 100000 - 1).tdiv 100000 = (e + 100000 - 1) / 100000 :=
    Int.tdiv_eq_ediv (by omega) (by norm_num)
  have hfloor : ⌊(s : ℚ) / 100000⌋ = s / 100000 := by
    have := Rat.floor_intCast_div_natCast s 100000
    norm_num at this ⊢
    exact this
  have hceil : ⌈(e : ℚ) / 100000⌉ = (e + 100000 - 1) / 100000 := by
    rw [show ((e : ℚ) / 100000) = -(((-e : Int) : ℚ) / ((100000 : ℕ) : ℚ)) by push_cast; ring]
    rw [Int.ceil_neg, Rat.floor_intCast_div_natCast]
    omega
  constructor
  · intro key
    rw [hfloor, hceil]
    simp only [get_index_keys_from_range, ht1, ht2]
    constructor
    · intro hmem
      rw [List.mem_map] at hmem
      obtain ⟨i, hi_range, hkey⟩ := hmem
      rw [List.mem_range] at hi_range
      subst hkey
      exact ⟨rfl, s / 100000 + (i : Int), by omega, by omega, rfl⟩
    · rintro ⟨hk1, k, hk2, hk3, hk4⟩
      rw [List.mem_map]
      refine ⟨(k - s / 100000).toNat, ?_, ?_⟩
      · rw [List.mem_range]
        omega
      · obtain ⟨kc, kp⟩ := key
        simp only at hk1 hk4
        rw [Prod.mk.injEq]
        exact ⟨hk1.symm, by omega⟩
  · simp only [get_index_keys_from_range, ht1, ht2, List.map_map]
    refine List.Pairwise.chain' ?_
    refine List.Pairwise.map _ (fun a b hab => ?_) (List.pairwise_lt_range _)
    simp only [Function.comp]
    omega

-- ---------------------------------------------------------------------------
-- Helper lemmas about the character-stream primitives.
-- ---------------------------------------------------------------------------

theorem takeWhile_append_of_all {α : Type} (p : α → Bool) (xs ys : List α)
    (h : ∀ x ∈ xs, p x = true) :
    (xs ++ ys).takeWhile p = xs ++ ys.takeWhile p := by
  induction xs with
  | nil => rfl
  | cons a t ih =>
    have ha : p a = true := h a (List.mem_cons_self a t)
    have ht := ih (fun x hx => h x (List.mem_cons_of_mem a hx))
    simp [List.takeWhile_cons, ha, ht]

theorem dropWhile_append_of_all {α : Type} (p : α → Bool) (xs ys : List α)
    (h : ∀ x ∈ xs, p x = true) :
    (xs ++ ys).dropWhile p = ys.dropWhile p := by
  induction xs with
  | nil => rfl
  | cons a t ih =>
    have ha : p a = true := h a (List.mem_cons_self a t)
    have ht := ih (fun x hx => h x (List.mem_cons_of_mem a hx))
    simp [List.dropWhile_cons, ha, ht]

theorem digit_facts (c : Char) (h : c.isDigit = true) :
    isWs c = false ∧ c ≠ ':' ∧ c ≠ '-' ∧ c ≠ '+' ∧ c ≠ '#' := by
  refine ⟨?_, ?_, ?_, ?_, ?_⟩
  · by_cases h1 : c = ' '
    · subst h1; exact absurd h (by decide)
    · by_cases h2 : c = '\t'
      · subst h2; exact absurd h (by decide)
      · simp [isWs, h1, h2]
  · rintro rfl; exact absurd h (by decide)
  · rintro rfl; exact absurd h (by decide)
  · rintro rfl; exact absurd h (by decide)
  · rintro rfl; exact absurd h (by decide)

theorem replaceChar_append (c d : Char) (xs ys : List Char) :
    replaceChar c d (xs ++ ys) = replaceChar c d xs ++ replaceChar c d ys :=
  List.map_append _ xs ys

theorem replaceChar_of_not_mem (c d : Char) (xs : List Char) (h : ∀ x ∈ xs, x ≠ c) :
    replaceChar c d xs = xs := by
  induction xs with
  | nil => rfl
  | cons a t ih =>
    have ha : a ≠ c := h a (List.mem_cons_self a t)
    have ht := ih (fun x hx => h x (List.mem_cons_of_mem a hx))
    simp only [replaceChar, List.map_cons, if_neg ha] at *
    rw [ht]

theorem contains_eq_false_of_not_mem (l : List Char) (a : Char) (h : a ∉ l) :
    l.contains a = false := by
  rw [show l.contains a = List.elem a l from rfl]
  rw [Bool.eq_false_iff]
  intro hc
  exact h (List.elem_iff.mp hc)

theorem contains_eq_true_of_mem (l : List Char) (a : Char) (h : a ∈ l) :
    l.contains a = true := by
  rw [show l.contains a = List.elem a l from rfl]
  exact List.elem_iff.mpr h

-- Reading one token from a buffer that starts with a non-blank token followed
-- by a blank and more characters.
theorem readToken_app (xs r : List Char) (hne : xs ≠ [])
    (hx : ∀ ch ∈ xs, isWs ch = false) :
    Iss.readToken ⟨xs ++ ' ' :: r, false⟩ = (xs, ⟨' ' :: r, false⟩) := by
  obtain ⟨a, t, rfl⟩ := List.exists_cons_of_ne_nil hne
  have ha : isWs a = false := hx a (List.mem_cons_self a t)
  have ht : ∀ ch ∈ t, isWs ch = false := fun ch hc => hx ch (List.mem_cons_of_mem a hc)
  unfold Iss.readToken
  simp only [Bool.false_eq_true, if_false, List.cons_append, List.dropWhile_cons, ha,
    List.takeWhile_cons, Bool.not_false]
  rw [takeWhile_append_of_all _ t (' ' :: r) (fun x hxm => by simp [ht x hxm]),
      dropWhile_append_of_all _ t (' ' :: r) (fun x hxm => by simp [ht x hxm])]
  simp [List.takeWhile_cons, List.dropWhile_cons, isWs]

-- A leading blank is skipped.
theorem readToken_cons_ws (c : Char) (l : List Char) (hc : isWs c = true) :
    Iss.readToken ⟨c :: l, false⟩ = Iss.readToken ⟨l, false⟩ := by
  unfold Iss.readToken
  simp [List.dropWhile_cons, hc]

theorem takeWhile_of_all {α : Type} (p : α → Bool) (xs : List α)
    (h : ∀ x ∈ xs, p x = true) : xs.takeWhile p = xs := by
  induction xs with
  | nil => rfl
  | cons a t ih =>
    simp [List.takeWhile_cons, h a (List.mem_cons_self a t),
      ih (fun x hx => h x (List.mem_cons_of_mem a hx))]

theorem dropWhile_of_all {α : Type} (p : α → Bool) (xs : List α)
    (h : ∀ x ∈ xs, p x = true) : xs.dropWhile p = [] := by
  induction xs with
  | nil => rfl
  | cons a t ih =>
    simp [List.dropWhile_cons, h a (List.mem_cons_self a t),
      ih (fun x hx => h x (List.mem_cons_of_mem a hx))]

-- Reading an int from a buffer holding one blank, then digits, then nothing.
theorem readInt_digits_end (ds : List Char) (hne : ds ≠ [])
    (hd : ∀ ch ∈ ds, ch.isDigit = true) :
    Iss.readInt ⟨' ' :: ds, false⟩ = some ((digitsVal ds : Int), ⟨[], true⟩) := by
  obtain ⟨a, t, rfl⟩ := List.exists_cons_of_ne_nil hne
  have ha := hd a (List.mem_cons_self a t)
  have hfa := digit_facts a ha
  have htw : List.takeWhile Char.isDigit (a :: t) = a :: t := takeWhile_of_all _ _ hd
  have hdw : List.dropWhile Char.isDigit (a :: t) = [] := dropWhile_of_all _ _ hd
  unfold Iss.readInt
  simp [List.dropWhile_cons, show isWs ' ' = true by decide, hfa.1, splitSign,
    hfa.2.2.1, hfa.2.2.2.1, htw, hdw]

-- Reading an int from a buffer holding one blank, digits, then a blank and a
-- remainder.
theorem readInt_digits_more (ds r : List Char) (hne : ds ≠ [])
    (hd : ∀ ch ∈ ds, ch.isDigit = true) :
    Iss.readInt ⟨' ' :: ds ++ ' ' :: r, false⟩ =
      some ((digitsVal ds : Int), ⟨' ' :: r, false⟩) := by
  obtain ⟨a, t, rfl⟩ := List.exists_cons_of_ne_nil hne
  have ha := hd a (List.mem_cons_self a t)
  have hfa := digit_facts a ha
  have htw : List.takeWhile Char.isDigit ((a :: t) ++ ' ' :: r) = a :: t := by
    rw [takeWhile_append_of_all _ (a :: t) (' ' :: r) hd]
    simp [List.takeWhile_cons]
  have hdw : List.dropWhile Char.isDigit ((a :: t) ++ ' ' :: r) = ' ' :: r := by
    rw [dropWhile_append_of_all _ (a :: t) (' ' :: r) hd]
    simp [List.dropWhile_cons]
  unfold Iss.readInt
  simp only [List.cons_append] at htw hdw ⊢
  simp [List.dropWhile_cons, show isWs ' ' = true by decide, hfa.1, splitSign,
    hfa.2.2.1, hfa.2.2.2.1, htw, hdw]

theorem replaceChar_cons (c d x : Char) (l : List Char) :
    replaceChar c d (x :: l) = (if x = c then d else x) :: replaceChar c d l := rfl

theorem readInt_bad (l : List Char) : Iss.readInt ⟨l, true⟩ = none := by
  unfold Iss.readInt
  simp

-- ---------------------------------------------------------------------------
-- Symbolic traces of parse_range on the four token shapes of interest.
-- ---------------------------------------------------------------------------

theorem parse_range_single (cn ds : List Char) (c : Nat) (contigs : contigs_t)
    (item0 : blacklist_item_t)
    (hne : cn ≠ []) (hcn : ∀ ch ∈ cn, isWs ch = false ∧ ch ≠ ':' ∧ ch ≠ '-' ∧ ch ≠ '+')
    (hdne : ds ≠ []) (hds : ∀ ch ∈ ds, ch.isDigit = true)
    (hlook : map_find contigs (String.mk cn) = some c) :
    parse_range (String.mk (cn ++ ':' :: ds)) contigs item0 =
      some { item0 with strand_defined := false, contig := c,
                        start := (digitsVal ds : Int) - 1,
                        end_ := (digitsVal ds : Int) - 1 } := by
  have hrange : replaceChar ':' ' ' (cn ++ ':' :: ds) = cn ++ ' ' :: ds := by
    rw [replaceChar_append, replaceChar_of_not_mem _ _ cn (fun x hx => (hcn x hx).2.1),
      replaceChar_cons, if_pos rfl,
      replaceChar_of_not_mem _ _ ds (fun x hx => (digit_facts x (hds x hx)).2.1)]
  have hws : ∀ ch ∈ cn, isWs ch = false := fun ch h => (hcn ch h).1
  have htok : Iss.readToken ⟨cn ++ ' ' :: ds, false⟩ = (cn, ⟨' ' :: ds, false⟩) :=
    readToken_app cn ds hne hws
  have hnc : (cn ++ ' ' :: ds).contains '-' = false := by
    apply contains_eq_false_of_not_mem
    intro hmem
    rcases List.mem_append.mp hmem with h | h
    · exact (hcn _ h).2.2.1 rfl
    · rcases List.mem_cons.mp h with h | h
      · exact absurd h.symm (by decide)
      · exact (digit_facts _ (hds _ h)).2.2.1 rfl
  have hint : Iss.readInt ⟨' ' :: ds, false⟩ = some ((digitsVal ds : Int), ⟨[], true⟩) :=
    readInt_digits_end ds hdne hds
  obtain ⟨a, t, rfl⟩ := List.exists_cons_of_ne_nil hne
  have hna : ¬(a = '+') := (hcn a (List.mem_cons_self a t)).2.2.2
  have hnm : ¬(a = '-') := (hcn a (List.mem_cons_self a t)).2.2.1
  simp only [parse_range, String.toList] at *
  simp only [List.cons_append] at hrange htok hnc ⊢
  rw [hrange]
  simp only [htok, hnc, hint, List.isEmpty_cons, Bool.false_eq_true, if_false,
    if_neg hna, if_neg hnm, hlook]

theorem parse_range_plus (cn ds : List Char) (c : Nat) (contigs : contigs_t)
    (item0 : blacklist_item_t)
    (hne : cn ≠ []) (hcn : ∀ ch ∈ cn, isWs ch = false ∧ ch ≠ ':' ∧ ch ≠ '-' ∧ ch ≠ '+')
    (hdne : ds ≠ []) (hds : ∀ ch ∈ ds, ch.isDigit = true)
    (hlook : map_find contigs (String.mk cn) = some c) :
    parse_range (String.mk ('+' :: cn ++ ':' :: ds)) contigs item0 =
      some { item0 with strand_defined := true, strand := strand_t.FORWARD, contig := c,
                        start := (digitsVal ds : Int) - 1,
                        end_ := (digitsVal ds : Int) - 1 } := by
  have hrange : replaceChar ':' ' ' ('+' :: cn ++ ':' :: ds) = '+' :: cn ++ ' ' :: ds := by
    rw [show ('+' :: cn ++ ':' :: ds) = '+' :: (cn ++ ':' :: ds) from rfl, replaceChar_cons,
      if_neg (by decide), replaceChar_append,
      replaceChar_of_not_mem _ _ cn (fun x hx => (hcn x hx).2.1),
      replaceChar_cons, if_pos rfl,
      replaceChar_of_not_mem _ _ ds (fun x hx => (digit_facts x (hds x hx)).2.1)]
    rfl
  have htok : Iss.readToken ⟨('+' :: cn) ++ ' ' :: ds, false⟩ =
      ('+' :: cn, ⟨' ' :: ds, false⟩) := by
    apply readToken_app _ _ (by simp)
    intro ch hch
    rcases List.mem_cons.mp hch with h | h
    · subst h; decide
    · exact (hcn ch h).1
  have hnc : (('+' :: cn) ++ ' ' :: ds).contains '-' = false := by
    apply contains_eq_false_of_not_mem
    intro hmem
    rcases List.mem_append.mp hmem with h | h
    · rcases List.mem_cons.mp h with h | h
      · exact absurd h.symm (by decide)
      · exact (hcn _ h).2.2.1 rfl
    · rcases List.mem_cons.mp h with h | h
      · exact absurd h.symm (by decide)
      · exact (digit_facts _ (hds _ h)).2.2.1 rfl
  have hint : Iss.readInt ⟨' ' :: ds, false⟩ = some ((digitsVal ds : Int), ⟨[], true⟩) :=
    readInt_digits_end ds hdne hds
  simp only [parse_range, String.toList] at *
  simp only [List.cons_append] at hrange htok hnc ⊢
  rw [hrange]
  simp [htok, hnc, hint, hlook]
  intro hmem
  exfalso
  rcases hmem with h | h
  · exact (hcn _ h).2.2.1 rfl
  · exact (digit_facts _ (hds _ h)).2.2.1 rfl

theorem parse_range_minus_single (cn ds : List Char) (contigs : contigs_t)
    (item0 : blacklist_item_t)
    (hne : cn ≠ []) (hcn : ∀ ch ∈ cn, isWs ch = false ∧ ch ≠ ':' ∧ ch ≠ '-' ∧ ch ≠ '+')
    (hdne : ds ≠ []) (hds : ∀ ch ∈ ds, ch.isDigit = true) :
    parse_range (String.mk ('-' :: cn ++ ':' :: ds)) contigs item0 = none := by
  have hrange : replaceChar ':' ' ' ('-' :: cn ++ ':' :: ds) = '-' :: cn ++ ' ' :: ds := by
    rw [show ('-' :: cn ++ ':' :: ds) = '-' :: (cn ++ ':' :: ds) from rfl, replaceChar_cons,
      if_neg (by decide), replaceChar_append,
      replaceChar_of_not_mem _ _ cn (fun x hx => (hcn x hx).2.1),
      replaceChar_cons, if_pos rfl,
      replaceChar_of_not_mem _ _ ds (fun x hx => (digit_facts x (hds x hx)).2.1)]
    rfl
  have htok : Iss.readToken ⟨('-' :: cn) ++ ' ' :: ds, false⟩ =
      ('-' :: cn, ⟨' ' :: ds, false⟩) := by
    apply readToken_app _ _ (by simp)
    intro ch hch
    rcases List.mem_cons.mp hch with h | h
    · subst h; decide
    · exact (hcn ch h).1
  have hc : (('-' :: cn) ++ ' ' :: ds).contains '-' = true :=
    contains_eq_true_of_mem _ _ (by simp)
  have hrange2 : replaceChar '-' ' ' ('-' :: cn ++ ' ' :: ds) = ' ' :: cn ++ ' ' :: ds := by
    rw [show ('-' :: cn ++ ' ' :: ds) = '-' :: (cn ++ ' ' :: ds) from rfl, replaceChar_cons,
      if_pos rfl, replaceChar_append,
      replaceChar_of_not_mem _ _ cn (fun x hx => (hcn x hx).2.2.1),
      replaceChar_cons, if_neg (by decide),
      replaceChar_of_not_mem _ _ ds (fun x hx => (digit_facts x (hds x hx)).2.2.1)]
    rfl
  have htok2 : Iss.readToken ⟨' ' :: (cn ++ ' ' :: ds), false⟩ = (cn, ⟨' ' :: ds, false⟩) := by
    rw [readToken_cons_ws ' ' _ (by decide)]
    exact readToken_app cn ds hne (fun ch h => (hcn ch h).1)
  have hint : Iss.readInt ⟨' ' :: ds, false⟩ = some ((digitsVal ds : Int), ⟨[], true⟩) :=
    readInt_digits_end ds hdne hds
  simp only [parse_range, String.toList] at *
  simp only [List.cons_append] at hrange htok hc hrange2 htok2 ⊢
  rw [hrange]
  simp only [htok, hc, List.isEmpty_cons, Bool.false_eq_true, if_false, if_pos rfl,
    if_neg (by decide : ¬('-' = '+')), ite_true]
  cases hfind : map_find contigs (String.mk cn) with
  | none => simp [hfind]
  | some c => simp [hfind, hrange2, htok2, hint, readInt_bad]

theorem parse_range_startend (cn ds1 ds2 : List Char) (c : Nat) (contigs : contigs_t)
    (item0 : blacklist_item_t)
    (hne : cn ≠ []) (hcn : ∀ ch ∈ cn, isWs ch = false ∧ ch ≠ ':' ∧ ch ≠ '-' ∧ ch ≠ '+')
    (hdne1 : ds1 ≠ []) (hds1 : ∀ ch ∈ ds1, ch.isDigit = true)
    (hdne2 : ds2 ≠ []) (hds2 : ∀ ch ∈ ds2, ch.isDigit = true)
    (hlook : map_find contigs (String.mk cn) = some c) :
    parse_range (String.mk (cn ++ ':' :: ds1 ++ '-' :: ds2)) contigs item0 =
      some { item0 with strand_defined := false, contig := c,
                        start := (digitsVal ds1 : Int) - 1,
                        end_ := (digitsVal ds2 : Int) - 1 } := by
  have hrange : replaceChar ':' ' ' (cn ++ ':' :: ds1 ++ '-' :: ds2) =
      cn ++ ' ' :: ds1 ++ '-' :: ds2 := by
    rw [replaceChar_append, replaceChar_append,
      replaceChar_of_not_mem _ _ cn (fun x hx => (hcn x hx).2.1),
      replaceChar_cons, if_pos rfl,
      replaceChar_of_not_mem _ _ ds1 (fun x hx => (digit_facts x (hds1 x hx)).2.1),
      replaceChar_cons, if_neg (by decide),
      replaceChar_of_not_mem _ _ ds2 (fun x hx => (digit_facts x (hds2 x hx)).2.1)]
  have hws : ∀ ch ∈ cn, isWs ch = false := fun ch h => (hcn ch h).1
  have htok : Iss.readToken ⟨cn ++ ' ' :: (ds1 ++ '-' :: ds2), false⟩ =
      (cn, ⟨' ' :: (ds1 ++ '-' :: ds2), false⟩) :=
    readToken_app cn (ds1 ++ '-' :: ds2) hne hws
  have hc : (cn ++ ' ' :: ds1 ++ '-' :: ds2).contains '-' = true :=
    contains_eq_true_of_mem _ _ (by simp)
  have hrange2 : replaceChar '-' ' ' (cn ++ ' ' :: ds1 ++ '-' :: ds2) =
      cn ++ ' ' :: ds1 ++ ' ' :: ds2 := by
    rw [replaceChar_append, replaceChar_append,
      replaceChar_of_not_mem _ _ cn (fun x hx => (hcn x hx).2.2.1),
      replaceChar_cons, if_neg (by decide),
      replaceChar_of_not_mem _ _ ds1 (fun x hx => (digit_facts x (hds1 x hx)).2.2.1),
      replaceChar_cons, if_pos rfl,
      replaceChar_of_not_mem _ _ ds2 (fun x hx => (digit_facts x (hds2 x hx)).2.2.1)]
  have htok2 : Iss.readToken ⟨cn ++ ' ' :: (ds1 ++ ' ' :: ds2), false⟩ =
      (cn, ⟨' ' :: (ds1 ++ ' ' :: ds2), false⟩) :=
    readToken_app cn (ds1 ++ ' ' :: ds2) hne hws
  have hint1 : Iss.readInt ⟨' ' :: ds1 ++ ' ' :: ds2, false⟩ =
      some ((digitsVal ds1 : Int), ⟨' ' :: ds2, false⟩) :=
    readInt_digits_more ds1 ds2 hdne1 hds1
  have hint2 : Iss.readInt ⟨' ' :: ds2, false⟩ =
      some ((digitsVal ds2 : Int), ⟨[], true⟩) :=
    readInt_digits_end ds2 hdne2 hds2
  obtain ⟨a, t, rfl⟩ := List.exists_cons_of_ne_nil hne
  have hna : ¬(a = '+') := (hcn a (List.mem_cons_self a t)).2.2.2
  have hnm : ¬(a = '-') := (hcn a (List.mem_cons_self a t)).2.2.1
  simp only [parse_range, String.toList] at *
  simp only [List.cons_append, List.append_assoc] at hrange htok hc hrange2 htok2 hint1 ⊢
  rw [hrange]
  simp only [htok, hc, hrange2, htok2, hint1, hint2, List.isEmpty_cons,
    Bool.false_eq_true, if_false, if_neg hna, if_neg hnm, hlook, ite_true]

/-- C5: a 1-based token chr:s-e with a known contig and valid numbers parses to
the 0-based inclusive interval [s-1, e-1], and chr:p parses to [p-1, p-1]; the
1-based to 0-based conversion is applied exactly once to each coordinate. -/
theorem c5_one_based_to_zero_based (cn ds ds1 ds2 : List Char) (c : Nat)
    (contigs : contigs_t) (item0 : blacklist_item_t)
    (hne : cn ≠ [])
    (hcn : ∀ ch ∈ cn, isWs ch = false ∧ ch ≠ ':' ∧ ch ≠ '-' ∧ ch ≠ '+')
    (hdne : ds ≠ []) (hds : ∀ ch ∈ ds, ch.isDigit = true)
    (hdne1 : ds1 ≠ []) (hds1 : ∀ ch ∈ ds1, ch.isDigit = true)
    (hdne2 : ds2 ≠ []) (hds2 : ∀ ch ∈ ds2, ch.isDigit = true)
    (hlook : map_find contigs (String.mk cn) = some c) :
    parse_range (String.mk (cn ++ ':' :: ds1 ++ '-' :: ds2)) contigs item0 =
      some { item0 with strand_defined := false, contig := c,
                        start := (digitsVal ds1 : Int) - 1,
                        end_ := (digitsVal ds2 : Int) - 1 } ∧
    parse_range (String.mk (cn ++ ':' :: ds)) contigs item0 =
      some { item0 with strand_defined := false, contig := c,
                        start := (digitsVal ds : Int) - 1,
                        end_ := (digitsVal ds : Int) - 1 } :=
  ⟨parse_range_startend cn ds1 ds2 c contigs item0 hne hcn hdne1 hds1 hdne2 hds2 hlook,
   parse_range_single cn ds c contigs item0 hne hcn hdne hds hlook⟩

/-- Witness for C5: chr1:100-200 parses to [99, 199] and chr1:7 to [6, 6]
against the sample contig catalog. -/
theorem c5_witness :
    ((['c', 'h', 'r', '1'] : List Char) ≠ [] ∧
     (∀ ch ∈ (['c', 'h', 'r', '1'] : List Char),
        isWs ch = false ∧ ch ≠ ':' ∧ ch ≠ '-' ∧ ch ≠ '+') ∧
     (['7'] : List Char) ≠ [] ∧ (∀ ch ∈ (['7'] : List Char), ch.isDigit = true) ∧
     map_find sample_contigs (String.mk ['c', 'h', 'r', '1']) = some 0) ∧
    parse_range (String.mk (['c', 'h', 'r', '1'] ++ ':' :: ['1', '0', '0'] ++
        '-' :: ['2', '0', '0'])) sample_contigs default =
      some { (default : blacklist_item_t) with strand_defined := false, contig := 0,
                                               start := 99, end_ := 199 } ∧
    parse_range (String.mk (['c', 'h', 'r', '1'] ++ ':' :: ['7'])) sample_contigs default =
      some { (default : blacklist_item_t) with strand_defined := false, contig := 0,
                                               start := 6, end_ := 6 } := by
  refine ⟨⟨by decide, by decide, by decide, by decide, by rfl⟩, ?_⟩
  exact c5_one_based_to_zero_based ['c', 'h', 'r', '1'] ['7'] ['1', '0', '0'] ['2', '0', '0']
    0 sample_contigs default (by decide) (by decide) (by decide) (by decide) (by decide)
    (by decide) (by decide) (by decide) (by rfl)

/-- C3 counterexample: with a catalog in which chr1 resolves and position 5
valid, the token -chr1:5 fails to parse (the strand prefix makes the parser
take the start-end branch, where extracting the end coordinate fails), refuting
the claim that it yields a POSITION item with strand REVERSE. -/
theorem c3_minus_position_counterexample :
    map_find sample_contigs ("chr1") = some 0 ∧
    parse_range ("-chr1:5") sample_contigs default = none ∧
    parse_blacklist_item ("-chr1:5") sample_contigs [] false default = none := by
  refine ⟨by rfl, by rfl, by rfl⟩

/-- C3 amended: a token +contig:pos with a known contig and valid number parses
to a POSITION item with strand FORWARD (strand_defined set), contig resolved
after stripping the prefix, and start = end = pos - 1; the symmetric token
-contig:pos does NOT parse: its strand prefix makes the parser take the
start-end branch, where the extraction of the end coordinate fails, so the rule
is rejected with a warning. -/
theorem c3_strand_prefix_amended (cn ds : List Char) (c : Nat) (contigs : contigs_t)
    (genes : genes_t) (item0 : blacklist_item_t)
    (hne : cn ≠ [])
    (hcn : ∀ ch ∈ cn, isWs ch = false ∧ ch ≠ ':' ∧ ch ≠ '-' ∧ ch ≠ '+')
    (hdne : ds ≠ []) (hds : ∀ ch ∈ ds, ch.isDigit = true)
    (hlook : map_find contigs (String.mk cn) = some c)
    (hgene_plus : map_find genes (String.mk ('+' :: cn ++ ':' :: ds)) = none)
    (hgene_minus : map_find genes (String.mk ('-' :: cn ++ ':' :: ds)) = none) :
    parse_blacklist_item (String.mk ('+' :: cn ++ ':' :: ds)) contigs genes false item0 =
      some { item0 with type := blacklist_item_type_t.BLACKLIST_POSITION,
                        strand_defined := true, strand := strand_t.FORWARD, contig := c,
                        start := (digitsVal ds : Int) - 1,
                        end_ := (digitsVal ds : Int) - 1 } ∧
    parse_blacklist_item (String.mk ('-' :: cn ++ ':' :: ds)) contigs genes false item0 =
      none := by
  constructor
  · have hp := parse_range_plus cn ds c contigs item0 hne hcn hdne hds hlook
    simp only [parse_blacklist_item, Bool.false_eq_true, if_false, hgene_plus, hp]
    simp
  · have hm := parse_range_minus_single cn ds contigs item0 hne hcn hdne hds
    simp only [parse_blacklist_item, Bool.false_eq_true, if_false, hgene_minus, hm]

/-- Witness for C3 (amended): +chr1:5 parses to a FORWARD POSITION item at
[4, 4] and -chr1:5 fails, against the sample catalog. -/
theorem c3_witness :
    ((['c', 'h', 'r', '1'] : List Char) ≠ [] ∧
     (['5'] : List Char) ≠ [] ∧
     map_find sample_contigs (String.mk ['c', 'h', 'r', '1']) = some 0) ∧
    parse_blacklist_item (String.mk ('+' :: ['c', 'h', 'r', '1'] ++ ':' :: ['5']))
        sample_contigs [] false default =
      some { (default : blacklist_item_t) with
               type := blacklist_item_type_t.BLACKLIST_POSITION,
               strand_defined := true, strand := strand_t.FORWARD, contig := 0,
               start := 4, end_ := 4 } ∧
    parse_blacklist_item (String.mk ('-' :: ['c', 'h', 'r', '1'] ++ ':' :: ['5']))
        sample_contigs [] false default = none := by
  refine ⟨⟨by decide, by decide, by rfl⟩, ?_⟩
  exact c3_strand_prefix_amended ['c', 'h', 'r', '1'] ['5'] 0 sample_contigs [] default
    (by decide) (by decide) (by decide) (by decide) (by rfl) (by rfl) (by rfl)

/-- Witness for C2: a RANGE item [800, 1200] fully containing the gene
[900, 1100] of breakpoint 1 of the sample fusion. -/
theorem c2_witness :
    (sample_range_item.type = blacklist_item_type_t.BLACKLIST_RANGE ∧
     (1 = 1 ∨ 1 = 2) ∧
     (if 1 = 1 then sample_fusion.contig1 else sample_fusion.contig2) =
       sample_range_item.contig ∧
     sample_range_item.strand_defined = false) ∧
    ((matches_blacklist_item sample_range_item sample_fusion 1 1 10 = true ↔
      overlapping_fraction
        (if 1 = 1 then sample_fusion.gene1 else sample_fusion.gene2).start
        (if 1 = 1 then sample_fusion.gene1 else sample_fusion.gene2).end_
        sample_range_item.start sample_range_item.end_ > (0.5 : Rat)) ∧
     (overlapping_fraction
        (if 1 = 1 then sample_fusion.gene1 else sample_fusion.gene2).start
        (if 1 = 1 then sample_fusion.gene1 else sample_fusion.gene2).end_
        sample_range_item.start sample_range_item.end_ = (0.5 : Rat) →
      matches_blacklist_item sample_range_item sample_fusion 1 1 10 = false)) := by
  refine ⟨⟨rfl, Or.inl rfl, rfl, rfl⟩, ?_⟩
  exact c2_range_match_iff_overlap_gt_half sample_range_item sample_fusion 1 1 10
    rfl (Or.inl rfl) rfl (Or.inl rfl)

/-- Witness for C4: a POSITION item on contig chr1 against breakpoint 1 of the
sample fusion, which has zero split reads and direction DOWNSTREAM. -/
theorem c4_witness :
    (sample_position_item.type = blacklist_item_type_t.BLACKLIST_POSITION ∧
     (1 = 1 ∨ 1 = 2) ∧
     (if 1 = 1 then sample_fusion.contig1 else sample_fusion.contig2) =
       sample_position_item.contig ∧
     sample_position_item.strand_defined = false ∧
     sample_fusion.split_reads1 + sample_fusion.split_reads2 = 0 ∧
     (if 1 = 1 then sample_fusion.direction1 else sample_fusion.direction2) =
       direction_t.DOWNSTREAM ∧ (0 : Int) ≤ 10) ∧
    ((matches_blacklist_item sample_position_item sample_fusion 1 1 10 = true ↔
      ((if 1 = 1 then sample_fusion.breakpoint1 else sample_fusion.breakpoint2) =
         sample_position_item.start ∨
       (sample_fusion.split_reads1 + sample_fusion.split_reads2 = 0 ∧
         (((if 1 = 1 then sample_fusion.direction1 else sample_fusion.direction2) =
             direction_t.DOWNSTREAM ∧
           sample_position_item.start - 10 ≤
             (if 1 = 1 then sample_fusion.breakpoint1 else sample_fusion.breakpoint2) ∧
           (if 1 = 1 then sample_fusion.breakpoint1 else sample_fusion.breakpoint2) ≤
             sample_position_item.start) ∨
          ((if 1 = 1 then sample_fusion.direction1 else sample_fusion.direction2) =
             direction_t.UPSTREAM ∧
           sample_position_item.start ≤
             (if 1 = 1 then sample_fusion.breakpoint1 else sample_fusion.breakpoint2) ∧
           (if 1 = 1 then sample_fusion.breakpoint1 else sample_fusion.breakpoint2) ≤
             sample_position_item.start + 10))))) ∧
     (sample_fusion.split_reads1 + sample_fusion.split_reads2 = 0 →
      (if 1 = 1 then sample_fusion.direction1 else sample_fusion.direction2) =
        direction_t.DOWNSTREAM →
      (0 : Int) ≤ 10 →
      matches_blacklist_item
        { sample_position_item with
            start := (if 1 = 1 then sample_fusion.breakpoint1
                      else sample_fusion.breakpoint2) + 10 }
        sample_fusion 1 1 10 = true ∧
      matches_blacklist_item
        { sample_position_item with
            start := (if 1 = 1 then sample_fusion.breakpoint1
                      else sample_fusion.breakpoint2) + 10 + 1 }
        sample_fusion 1 1 10 = false)) := by
  refine ⟨⟨rfl, Or.inl rfl, rfl, rfl, rfl, rfl, by norm_num⟩, ?_⟩
  exact c4_position_matching sample_position_item sample_fusion 1 1 10
    rfl (Or.inl rfl) rfl (Or.inl rfl)

/-- Witness for C8 on the range [250000, 450001] of contig 3. -/
theorem c8_witness :
    ((0 : Int) ≤ 250000 ∧ (250000 : Int) ≤ 450001) ∧
    ((∀ key : Nat × Int, key ∈ get_index_keys_from_range 3 250000 450001 ↔
      (key.1 = 3 ∧ ∃ k : Int, ⌊((250000 : Int) : ℚ) / 100000⌋ ≤ k ∧
        k ≤ ⌈((450001 : Int) : ℚ) / 100000⌉ ∧ key.2 = k * 100000)) ∧
    List.Chain' (fun a b => a < b)
      ((get_index_keys_from_range 3 250000 450001).map Prod.snd)) := by
  refine ⟨⟨by norm_num, by norm_num⟩, ?_⟩
  exact c8_bucket_keys 3 250000 450001 (by norm_num) (by norm_num)

-- ---------------------------------------------------------------------------
-- The matching decision and the index keys of a fusion do not depend on its
-- filter tag; tagging is idempotent.
-- ---------------------------------------------------------------------------

theorem matches_blacklist_item_set_filter (item : blacklist_item_t) (f : fusion_t)
    (x : Option String) (wb : Nat) (ec : Rat) (mmg : Int) :
    matches_blacklist_item item { f with filter := x } wb ec mmg =
      matches_blacklist_item item f wb ec mmg := by
  cases h : item.type <;> simp [matches_blacklist_item, h]

theorem line_matches_set_filter (i1 i2 : blacklist_item_t) (ec : Rat) (mmg : Int)
    (f : fusion_t) (x : Option String) :
    line_matches i1 i2 ec mmg { f with filter := x } = line_matches i1 i2 ec mmg f := by
  simp [line_matches, matches_blacklist_item_set_filter]

theorem line_matches_tag (i1 i2 : blacklist_item_t) (ec : Rat) (mmg : Int) (f : fusion_t) :
    line_matches i1 i2 ec mmg (tag_fusion f) = line_matches i1 i2 ec mmg f :=
  line_matches_set_filter i1 i2 ec mmg f _

theorem fusion_index_keys_set_filter (f : fusion_t) (x : Option String) :
    fusion_index_keys { f with filter := x } = fusion_index_keys f := rfl

theorem tag_fusion_idem (f : fusion_t) : tag_fusion (tag_fusion f) = tag_fusion f := rfl

theorem line_condemns_set_filter (contigs : contigs_t) (genes : genes_t) (ec : Rat)
    (mmg : Int) (line : String) (f : fusion_t) (x : Option String) :
    line_condemns contigs genes ec mmg line { f with filter := x } =
      line_condemns contigs genes ec mmg line f := by
  unfold line_condemns
  cases hp : parse_line contigs genes line with
  | none => rfl
  | some p =>
    obtain ⟨i1, i2⟩ := p
    simp [line_matches_set_filter, fusion_index_keys_set_filter]

theorem condemned_set_filter (contigs : contigs_t) (genes : genes_t) (ec : Rat)
    (mmg : Int) (lines : List String) (f : fusion_t) (x : Option String) :
    condemned contigs genes ec mmg lines { f with filter := x } =
      condemned contigs genes ec mmg lines f := by
  unfold condemned
  have hfun : (fun line => line_condemns contigs genes ec mmg line { f with filter := x }) =
      (fun line => line_condemns contigs genes ec mmg line f) := by
    funext line
    exact line_condemns_set_filter contigs genes ec mmg line f x
  rw [hfun]

theorem condemned_tag (contigs : contigs_t) (genes : genes_t) (ec : Rat)
    (mmg : Int) (lines : List String) (f : fusion_t) :
    condemned contigs genes ec mmg lines (tag_fusion f) =
      condemned contigs genes ec mmg lines f :=
  condemned_set_filter contigs genes ec mmg lines f _

theorem fusion_skipped_tag (f : fusion_t) :
    fusion_skipped_in_index (tag_fusion f) = decide (f.closest_genomic_breakpoint1 < 0) := by
  simp [tag_fusion, fusion_skipped_in_index, blacklist_filter_tag]

-- Appending to the processed-line history.
theorem condemned_append (contigs : contigs_t) (genes : genes_t) (ec : Rat) (mmg : Int)
    (l1 l2 : List String) (f : fusion_t) :
    condemned contigs genes ec mmg (l1 ++ l2) f =
      (condemned contigs genes ec mmg l1 f || condemned contigs genes ec mmg l2 f) := by
  simp [condemned, List.any_append]

theorem evicted_append (contigs : contigs_t) (genes : genes_t) (ec : Rat) (mmg : Int)
    (l1 l2 : List String) (k : Nat × Int) (f : fusion_t) :
    evicted contigs genes ec mmg (l1 ++ l2) k f =
      (evicted contigs genes ec mmg l1 k f || evicted contigs genes ec mmg l2 k f) := by
  simp [evicted, List.any_append]

theorem condemned_singleton (contigs : contigs_t) (genes : genes_t) (ec : Rat) (mmg : Int)
    (line : String) (f : fusion_t) :
    condemned contigs genes ec mmg [line] f = line_condemns contigs genes ec mmg line f := by
  simp [condemned]

theorem evicted_singleton (contigs : contigs_t) (genes : genes_t) (ec : Rat) (mmg : Int)
    (line : String) (k : Nat × Int) (f : fusion_t) :
    evicted contigs genes ec mmg [line] k f = line_evicts contigs genes ec mmg line k f := by
  simp [evicted]

-- ---------------------------------------------------------------------------
-- Behaviour of one bucket iteration (iterate_set).
-- ---------------------------------------------------------------------------

theorem tag_fusion_def (f : fusion_t) :
    { f with filter := blacklist_filter_tag } = tag_fusion f := rfl

theorem iterate_set_length (i1 i2 : blacklist_item_t) (ec : Rat) (mmg : Int)
    (s : List Nat) (fs : List fusion_t) :
    (iterate_set i1 i2 ec mmg s fs).2.length = fs.length := by
  induction s generalizing fs with
  | nil => rfl
  | cons i t ih =>
    unfold iterate_set
    cases hfi : fs[i]? with
    | none => simpa using ih fs
    | some f =>
      by_cases hm : line_matches i1 i2 ec mmg f = true
      · simp only [hm, if_true]
        rw [ih]
        simp
      · rw [Bool.not_eq_true] at hm
        simp only [hm, Bool.false_eq_true, if_false]
        simpa using ih fs

theorem matched_at_set_tag (i1 i2 : blacklist_item_t) (ec : Rat) (mmg : Int)
    (fs : List fusion_t) (i : Nat) (f : fusion_t)
    (hfi : fs[i]? = some f) (j : Nat) :
    matched_at i1 i2 ec mmg (fs.set i (tag_fusion f)) j = matched_at i1 i2 ec mmg fs j := by
  have hlen : i < fs.length := by
    by_contra hge
    rw [List.getElem?_eq_none (by omega)] at hfi
    exact Option.noConfusion hfi
  unfold matched_at
  by_cases hji : j = i
  · subst hji
    rw [List.getElem?_set_self hlen, hfi]
    exact line_matches_tag i1 i2 ec mmg f
  · rw [List.getElem?_set_ne (fun h => hji h.symm)]

theorem iterate_set_getElem (i1 i2 : blacklist_item_t) (ec : Rat) (mmg : Int)
    (s : List Nat) (fs : List fusion_t) (j : Nat) :
    (iterate_set i1 i2 ec mmg s fs).2[j]? =
      (if j ∈ s ∧ matched_at i1 i2 ec mmg fs j = true
       then (fs[j]?).map tag_fusion else fs[j]?) := by
  induction s generalizing fs with
  | nil => simp [iterate_set]
  | cons i t ih =>
    unfold iterate_set
    cases hfi : fs[i]? with
    | none =>
      simp only []
      rw [ih fs]
      by_cases hji : j = i
      · subst hji
        have hM : matched_at i1 i2 ec mmg fs j = false := by
          unfold matched_at
          rw [hfi]
        simp [hM]
      · simp [List.mem_cons, hji]
    | some f =>
      have hlen : i < fs.length := by
        by_contra hge
        rw [List.getElem?_eq_none (by omega)] at hfi
        exact Option.noConfusion hfi
      have hMi : matched_at i1 i2 ec mmg fs i = line_matches i1 i2 ec mmg f := by
        unfold matched_at
        rw [hfi]
      by_cases hm : line_matches i1 i2 ec mmg f = true
      · simp only [hm, if_true, tag_fusion_def]
        rw [ih (fs.set i (tag_fusion f))]
        by_cases hji : j = i
        · subst hji
          rw [matched_at_set_tag i1 i2 ec mmg fs j f hfi j]
          rw [List.getElem?_set_self hlen, hfi, hMi]
          simp [hm, tag_fusion_idem]
        · rw [matched_at_set_tag i1 i2 ec mmg fs i f hfi j]
          rw [List.getElem?_set_ne (fun h => hji h.symm)]
          simp [List.mem_cons, hji]
      · rw [Bool.not_eq_true] at hm
        simp only [hm, Bool.false_eq_true, if_false]
        rw [ih fs]
        by_cases hji : j = i
        · subst hji
          rw [hMi, hm]
          simp
        · simp [List.mem_cons, hji]

theorem iterate_set_fst (i1 i2 : blacklist_item_t) (ec : Rat) (mmg : Int)
    (s : List Nat) (fs : List fusion_t) :
    (iterate_set i1 i2 ec mmg s fs).1 =
      s.filter (fun j => !(matched_at i1 i2 ec mmg fs j)) := by
  induction s generalizing fs with
  | nil => rfl
  | cons i t ih =>
    unfold iterate_set
    cases hfi : fs[i]? with
    | none =>
      have hM : matched_at i1 i2 ec mmg fs i = false := by
        unfold matched_at
        rw [hfi]
      simp only []
      rw [ih fs]
      simp [List.filter_cons, hM]
    | some f =>
      have hMi : matched_at i1 i2 ec mmg fs i = line_matches i1 i2 ec mmg f := by
        unfold matched_at
        rw [hfi]
      by_cases hm : line_matches i1 i2 ec mmg f = true
      · simp only [hm, if_true, tag_fusion_def]
        rw [ih (fs.set i (tag_fusion f))]
        rw [List.filter_cons]
        rw [show matched_at i1 i2 ec mmg fs i = true from hMi.trans hm]
        simp only [Bool.not_true, Bool.false_eq_true, if_false]
        apply List.filter_congr
        intro x hx
        rw [matched_at_set_tag i1 i2 ec mmg fs i f hfi x]
      · rw [Bool.not_eq_true] at hm
        simp only [hm, Bool.false_eq_true, if_false]
        rw [ih fs]
        rw [List.filter_cons]
        rw [show matched_at i1 i2 ec mmg fs i = false from hMi.trans hm]
        simp

theorem process_key_fusions (i1 i2 : blacklist_item_t) (ec : Rat) (mmg : Int)
    (st : FilterState) (key : Nat × Int) (j : Nat) :
    (process_key i1 i2 ec mmg st key).fusions[j]? =
      (if j ∈ st.index key ∧ matched_at i1 i2 ec mmg st.fusions j = true
       then (st.fusions[j]?).map tag_fusion else st.fusions[j]?) := by
  unfold process_key
  exact iterate_set_getElem i1 i2 ec mmg (st.index key) st.fusions j

theorem process_key_index (i1 i2 : blacklist_item_t) (ec : Rat) (mmg : Int)
    (st : FilterState) (key : Nat × Int) (k : Nat × Int) :
    (process_key i1 i2 ec mmg st key).index k =
      (if k = key
       then (st.index key).filter (fun j => !(matched_at i1 i2 ec mmg st.fusions j))
       else st.index k) := by
  unfold process_key
  by_cases h : k = key <;> simp [h, iterate_set_fst]

theorem process_key_len (i1 i2 : blacklist_item_t) (ec : Rat) (mmg : Int)
    (st : FilterState) (key : Nat × Int) :
    (process_key i1 i2 ec mmg st key).fusions.length = st.fusions.length := by
  unfold process_key
  exact iterate_set_length i1 i2 ec mmg (st.index key) st.fusions

theorem contains_iff_mem_pk (l : List (Nat × Int)) (k : Nat × Int) :
    l.contains k = true ↔ k ∈ l :=
  List.elem_iff


theorem any_append_single (l : List (Nat × Int)) (k : Nat × Int)
    (p : Nat × Int → Bool) :
    (l ++ [k]).any p = (l.any p || p k) := by
  simp [List.any_append]

theorem key_step (i1 i2 : blacklist_item_t) (ec : Rat) (mmg : Int)
    (fs0 : List fusion_t) (dn : fusion_t → Bool) (ev : Nat × Int → fusion_t → Bool)
    (dks : List (Nat × Int)) (key : Nat × Int) (st : FilterState)
    (hlink : ∀ k f, ev k f = true → k ∈ fusion_index_keys f → dn f = true)
    (hlen : st.fusions.length = fs0.length)
    (hfus : ∀ j : Nat, st.fusions[j]? = (fs0[j]?).map (fun f =>
      if fusion_skipped_in_index f = false ∧
         (dn f = true ∨ (dks.any (fun k => (fusion_index_keys f).contains k) = true ∧
           line_matches i1 i2 ec mmg f = true))
      then tag_fusion f else f))
    (hidx : ∀ (k : Nat × Int) (j : Nat), j ∈ st.index k ↔ (∃ f, fs0[j]? = some f ∧
      fusion_skipped_in_index f = false ∧ k ∈ fusion_index_keys f ∧
      ev k f = false ∧ ¬(k ∈ dks ∧ line_matches i1 i2 ec mmg f = true))) :
    (process_key i1 i2 ec mmg st key).fusions.length = fs0.length ∧
    (∀ j : Nat, (process_key i1 i2 ec mmg st key).fusions[j]? = (fs0[j]?).map (fun f =>
      if fusion_skipped_in_index f = false ∧
         (dn f = true ∨ ((dks ++ [key]).any (fun k => (fusion_index_keys f).contains k) = true ∧
           line_matches i1 i2 ec mmg f = true))
      then tag_fusion f else f)) ∧
    (∀ (k : Nat × Int) (j : Nat), j ∈ (process_key i1 i2 ec mmg st key).index k ↔ (∃ f, fs0[j]? = some f ∧
      fusion_skipped_in_index f = false ∧ k ∈ fusion_index_keys f ∧
      ev k f = false ∧ ¬(k ∈ dks ++ [key] ∧ line_matches i1 i2 ec mmg f = true))) := by
  have hg : ∀ j f, fs0[j]? = some f →
      matched_at i1 i2 ec mmg st.fusions j = line_matches i1 i2 ec mmg f := by
    intro j f hjf
    unfold matched_at
    rw [hfus j, hjf]
    by_cases hc : (fusion_skipped_in_index f = false ∧
        (dn f = true ∨ (dks.any (fun k => (fusion_index_keys f).contains k) = true ∧
          line_matches i1 i2 ec mmg f = true)))
    · rw [Option.map_some', if_pos hc]
      exact line_matches_tag i1 i2 ec mmg f
    · rw [Option.map_some', if_neg hc]
  have hnone : ∀ j, fs0[j]? = none → ∀ k, j ∉ st.index k := by
    intro j hj k hmem
    obtain ⟨f, hf, -⟩ := (hidx k j).mp hmem
    rw [hj] at hf
    exact Option.noConfusion hf
  refine ⟨?_, ?_, ?_⟩
  · rw [process_key_len, hlen]
  · intro j
    rw [process_key_fusions]
    cases hf0 : fs0[j]? with
    | none =>
      have hsf : st.fusions[j]? = none := by rw [hfus j, hf0]; rfl
      rw [hsf, Option.map_none']
      split <;> simp
    | some f =>
      have hm := hg j f hf0
      have hsf : st.fusions[j]? = some (if fusion_skipped_in_index f = false ∧
          (dn f = true ∨ (dks.any (fun k => (fusion_index_keys f).contains k) = true ∧
            line_matches i1 i2 ec mmg f = true))
          then tag_fusion f else f) := by
        rw [hfus j, hf0, Option.map_some']
      have hF1 : (fusion_skipped_in_index f = false ∧
          (dn f = true ∨ (dks.any (fun k => (fusion_index_keys f).contains k) = true ∧
            line_matches i1 i2 ec mmg f = true))) →
          (fusion_skipped_in_index f = false ∧
          (dn f = true ∨ ((dks ++ [key]).any (fun k => (fusion_index_keys f).contains k) = true ∧
            line_matches i1 i2 ec mmg f = true))) := by
        rintro ⟨hskip, hor⟩
        refine ⟨hskip, ?_⟩
        rcases hor with hdn | ⟨hany, hL⟩
        · exact Or.inl hdn
        · refine Or.inr ⟨?_, hL⟩
          rw [any_append_single, hany]
          rfl
      have hF2 : j ∈ st.index key → line_matches i1 i2 ec mmg f = true →
          (fusion_skipped_in_index f = false ∧
          (dn f = true ∨ ((dks ++ [key]).any (fun k => (fusion_index_keys f).contains k) = true ∧
            line_matches i1 i2 ec mmg f = true))) := by
        intro hmem hL
        obtain ⟨f2, hf2, hskip2, hkey2, -, -⟩ := (hidx key j).mp hmem
        rw [hf0] at hf2
        obtain rfl : f = f2 := Option.some.inj hf2
        refine ⟨hskip2, Or.inr ⟨?_, hL⟩⟩
        rw [any_append_single]
        rw [(contains_iff_mem_pk (fusion_index_keys f) key).mpr hkey2]
        simp
      have hF3 : ¬(j ∈ st.index key ∧ line_matches i1 i2 ec mmg f = true) →
          ((fusion_skipped_in_index f = false ∧
          (dn f = true ∨ ((dks ++ [key]).any (fun k => (fusion_index_keys f).contains k) = true ∧
            line_matches i1 i2 ec mmg f = true))) ↔
          (fusion_skipped_in_index f = false ∧
          (dn f = true ∨ (dks.any (fun k => (fusion_index_keys f).contains k) = true ∧
            line_matches i1 i2 ec mmg f = true)))) := by
        intro hnml
        constructor
        · rintro ⟨hskip, hor⟩
          refine ⟨hskip, ?_⟩
          rcases hor with hdn | ⟨hany, hL⟩
          · exact Or.inl hdn
          · rw [any_append_single, Bool.or_eq_true] at hany
            rcases hany with hany | hck
            · exact Or.inr ⟨hany, hL⟩
            · -- key is one of this fusion's own index keys
              have hkmem : key ∈ fusion_index_keys f :=
                (contains_iff_mem_pk (fusion_index_keys f) key).mp hck
              by_cases hev : ev key f = true
              · exact Or.inl (hlink key f hev hkmem)
              · by_cases hkd : key ∈ dks
                · refine Or.inr ⟨?_, hL⟩
                  rw [List.any_eq_true]
                  exact ⟨key, hkd, hck⟩
                · exfalso
                  apply hnml
                  refine ⟨(hidx key j).mpr ⟨f, hf0, hskip, hkmem,
                    Bool.not_eq_true _ ▸ hev, ?_⟩, hL⟩
                  rintro ⟨hkd2, -⟩
                  exact hkd hkd2
        · exact hF1
      by_cases hmL : j ∈ st.index key ∧ matched_at i1 i2 ec mmg st.fusions j = true
      · rw [if_pos hmL, hsf, Option.map_some', Option.map_some']
        have hL : line_matches i1 i2 ec mmg f = true := hm ▸ hmL.2
        have hCnew := hF2 hmL.1 hL
        rw [if_pos hCnew]
        by_cases hCold : (fusion_skipped_in_index f = false ∧
            (dn f = true ∨ (dks.any (fun k => (fusion_index_keys f).contains k) = true ∧
              line_matches i1 i2 ec mmg f = true)))
        · rw [if_pos hCold, tag_fusion_idem]
        · rw [if_neg hCold]
      · rw [if_neg hmL, hsf, Option.map_some']
        have hnml : ¬(j ∈ st.index key ∧ line_matches i1 i2 ec mmg f = true) := by
          rw [← hm]
          exact hmL
        rw [if_congr (hF3 hnml) rfl rfl]
  · intro k j
    rw [process_key_index]
    by_cases hkk : k = key
    · subst hkk
      rw [if_pos rfl, List.mem_filter, hidx k j]
      cases hf0 : fs0[j]? with
      | none =>
        constructor
        · rintro ⟨⟨f, hf, -⟩, -⟩
          exact Option.noConfusion hf
        · rintro ⟨f, hf, -⟩
          exact Option.noConfusion hf
      | some f =>
        have hm := hg j f hf0
        rw [hm]
        simp only [Option.some.injEq]
        by_cases hL : line_matches i1 i2 ec mmg f = true
        · simp only [hL]
          constructor
          · rintro ⟨-, hfalse⟩
            simp at hfalse
          · rintro ⟨f2, rfl, -, -, -, hnm⟩
            exfalso
            exact hnm ⟨by simp, hL⟩
        · rw [Bool.not_eq_true] at hL
          simp only [hL]
          constructor
          · rintro ⟨⟨f2, rfl, hskip2, hk2, hev2, -⟩, -⟩
            refine ⟨f, rfl, hskip2, hk2, hev2, ?_⟩
            rintro ⟨-, hL2⟩
            rw [hL] at hL2
            exact Bool.noConfusion hL2
          · rintro ⟨f2, rfl, hskip2, hk2, hev2, -⟩
            refine ⟨⟨f, rfl, hskip2, hk2, hev2, ?_⟩, by simp⟩
            rintro ⟨-, hL2⟩
            rw [hL] at hL2
            exact Bool.noConfusion hL2
    · rw [if_neg hkk]
      rw [hidx k j]
      constructor
      · rintro ⟨f, hf, hskip, hk, hev, hnm⟩
        refine ⟨f, hf, hskip, hk, hev, ?_⟩
        rintro ⟨hkd, hL⟩
        rw [List.mem_append] at hkd
        rcases hkd with hkd | hkd
        · exact hnm ⟨hkd, hL⟩
        · rw [List.mem_singleton] at hkd
          exact hkk hkd
      · rintro ⟨f, hf, hskip, hk, hev, hnm⟩
        refine ⟨f, hf, hskip, hk, hev, ?_⟩
        rintro ⟨hkd, hL⟩
        exact hnm ⟨List.mem_append.mpr (Or.inl hkd), hL⟩

-- Folding process_key over a list of query keys.
theorem keys_fold (i1 i2 : blacklist_item_t) (ec : Rat) (mmg : Int)
    (fs0 : List fusion_t) (dn : fusion_t → Bool) (ev : Nat × Int → fusion_t → Bool)
    (hlink : ∀ k f, ev k f = true → k ∈ fusion_index_keys f → dn f = true)
    (keys : List (Nat × Int)) :
    ∀ (dks : List (Nat × Int)) (st : FilterState),
    st.fusions.length = fs0.length →
    (∀ j : Nat, st.fusions[j]? = (fs0[j]?).map (fun f =>
      if fusion_skipped_in_index f = false ∧
         (dn f = true ∨ (dks.any (fun k => (fusion_index_keys f).contains k) = true ∧
           line_matches i1 i2 ec mmg f = true))
      then tag_fusion f else f)) →
    (∀ (k : Nat × Int) (j : Nat), j ∈ st.index k ↔ (∃ f, fs0[j]? = some f ∧
      fusion_skipped_in_index f = false ∧ k ∈ fusion_index_keys f ∧
      ev k f = false ∧ ¬(k ∈ dks ∧ line_matches i1 i2 ec mmg f = true))) →
    ((keys.foldl (process_key i1 i2 ec mmg) st).fusions.length = fs0.length ∧
     (∀ j : Nat, (keys.foldl (process_key i1 i2 ec mmg) st).fusions[j]? =
       (fs0[j]?).map (fun f =>
        if fusion_skipped_in_index f = false ∧
           (dn f = true ∨ ((dks ++ keys).any (fun k => (fusion_index_keys f).contains k) = true ∧
             line_matches i1 i2 ec mmg f = true))
        then tag_fusion f else f)) ∧
     (∀ (k : Nat × Int) (j : Nat), j ∈ (keys.foldl (process_key i1 i2 ec mmg) st).index k ↔
       (∃ f, fs0[j]? = some f ∧
        fusion_skipped_in_index f = false ∧ k ∈ fusion_index_keys f ∧
        ev k f = false ∧ ¬(k ∈ dks ++ keys ∧ line_matches i1 i2 ec mmg f = true)))) := by
  induction keys with
  | nil =>
    intro dks st h1 h2 h3
    simp only [List.foldl_nil, List.append_nil]
    exact ⟨h1, h2, h3⟩
  | cons key rest ih =>
    intro dks st h1 h2 h3
    obtain ⟨g1, g2, g3⟩ := key_step i1 i2 ec mmg fs0 dn ev dks key st hlink h1 h2 h3
    have h4 := ih (dks ++ [key]) (process_key i1 i2 ec mmg st key) g1 g2 g3
    simp only [List.foldl_cons]
    rw [show dks ++ key :: rest = (dks ++ [key]) ++ rest by simp]
    exact h4

-- ---------------------------------------------------------------------------
-- Membership in the freshly built spatial index.
-- ---------------------------------------------------------------------------

theorem set_insert_mem (n : Nat) (l : List Nat) (a : Nat) :
    a ∈ set_insert n l ↔ (a = n ∨ a ∈ l) := by
  induction l with
  | nil => simp [set_insert]
  | cons m t ih =>
    unfold set_insert
    by_cases h1 : n < m
    · rw [if_pos h1]
      simp only [List.mem_cons]
    · by_cases h2 : n = m
      · subst h2
        rw [if_neg h1, if_pos rfl]
        simp only [List.mem_cons]
        tauto
      · rw [if_neg h1, if_neg h2]
        simp only [List.mem_cons, ih]
        tauto

theorem index_insert_keys_mem (i : Nat) (keys : List (Nat × Int)) :
    ∀ (idx : Nat × Int → List Nat) (k : Nat × Int) (j : Nat),
    (j ∈ index_insert_keys i keys idx k ↔ ((j = i ∧ k ∈ keys) ∨ j ∈ idx k)) := by
  induction keys with
  | nil =>
    intro idx k j
    simp [index_insert_keys]
  | cons key rest ih =>
    intro idx k j
    unfold index_insert_keys
    simp only [List.foldl_cons]
    rw [show List.foldl
        (fun idx key => fun k => if k = key then set_insert i (idx k) else idx k)
        (fun k => if k = key then set_insert i (idx k) else idx k) rest =
      index_insert_keys i rest (fun k => if k = key then set_insert i (idx k) else idx k)
      from rfl]
    rw [ih]
    by_cases hk : k = key
    · subst hk
      rw [if_pos rfl, set_insert_mem]
      simp only [List.mem_cons]
      tauto
    · rw [if_neg hk]
      simp only [List.mem_cons]
      tauto

theorem build_index_aux (fs : List fusion_t) :
    ∀ (n : Nat) (idx0 : Nat × Int → List Nat) (k : Nat × Int) (j : Nat),
    (j ∈ (List.enumFrom n fs).foldl
        (fun idx p => if fusion_skipped_in_index p.2 then idx
          else index_insert_keys p.1 (fusion_index_keys p.2) idx) idx0 k ↔
      ((∃ m f, fs[m]? = some f ∧ j = n + m ∧ fusion_skipped_in_index f = false ∧
        k ∈ fusion_index_keys f) ∨ j ∈ idx0 k)) := by
  induction fs with
  | nil =>
    intro n idx0 k j
    simp [List.enumFrom]
  | cons a t ih =>
    intro n idx0 k j
    rw [show List.enumFrom n (a :: t) = (n, a) :: List.enumFrom (n + 1) t from rfl]
    simp only [List.foldl_cons]
    rw [ih (n + 1) _ k j]
    by_cases hskip : fusion_skipped_in_index a = true
    · simp only [hskip, if_true]
      constructor
      · rintro (⟨m, f, hm, rfl, hsk, hk⟩ | hmem)
        · refine Or.inl ⟨m + 1, f, ?_, by omega, hsk, hk⟩
          simpa using hm
        · exact Or.inr hmem
      · rintro (⟨m, f, hm, rfl, hsk, hk⟩ | hmem)
        · cases m with
          | zero =>
            rw [List.getElem?_cons_zero] at hm
            obtain rfl : a = f := Option.some.inj hm
            rw [hskip] at hsk
            exact Bool.noConfusion hsk
          | succ m =>
            rw [List.getElem?_cons_succ] at hm
            exact Or.inl ⟨m, f, hm, by omega, hsk, hk⟩
        · exact Or.inr hmem
    · rw [Bool.not_eq_true] at hskip
      simp only [hskip, Bool.false_eq_true, if_false]
      rw [index_insert_keys_mem]
      constructor
      · rintro (⟨m, f, hm, rfl, hsk, hk⟩ | (⟨rfl, hk⟩ | hmem))
        · refine Or.inl ⟨m + 1, f, ?_, by omega, hsk, hk⟩
          simpa using hm
        · exact Or.inl ⟨0, a, by simp, by omega, hskip, hk⟩
        · exact Or.inr hmem
      · rintro (⟨m, f, hm, rfl, hsk, hk⟩ | hmem)
        · cases m with
          | zero =>
            rw [List.getElem?_cons_zero] at hm
            obtain rfl : a = f := Option.some.inj hm
            exact Or.inr (Or.inl ⟨by omega, hk⟩)
          | succ m =>
            rw [List.getElem?_cons_succ] at hm
            exact Or.inl ⟨m, f, hm, by omega, hsk, hk⟩
        · exact Or.inr (Or.inr hmem)

theorem build_index_mem (fusions : List fusion_t) (k : Nat × Int) (j : Nat) :
    j ∈ build_index fusions k ↔ (∃ f, fusions[j]? = some f ∧
      fusion_skipped_in_index f = false ∧ k ∈ fusion_index_keys f) := by
  unfold build_index
  rw [show fusions.enum = List.enumFrom 0 fusions from rfl]
  rw [build_index_aux fusions 0 _ k j]
  simp only [List.not_mem_nil, or_false]
  constructor
  · rintro ⟨m, f, hm, rfl, hsk, hk⟩
    rw [Nat.zero_add]
    exact ⟨f, hm, hsk, hk⟩
  · rintro ⟨f, hf, hsk, hk⟩
    exact ⟨j, f, hf, by omega, hsk, hk⟩

theorem line_step (contigs : contigs_t) (genes : genes_t) (ec : Rat) (mmg : Int)
    (fs0 : List fusion_t) (done : List String) (st : FilterState) (line : String)
    (h1 : st.fusions.length = fs0.length)
    (h2 : ∀ j : Nat, st.fusions[j]? = (fs0[j]?).map (stage_result contigs genes ec mmg done))
    (h3 : ∀ (k : Nat × Int) (j : Nat), j ∈ st.index k ↔ (∃ f, fs0[j]? = some f ∧
      fusion_skipped_in_index f = false ∧ k ∈ fusion_index_keys f ∧
      evicted contigs genes ec mmg done k f = false)) :
    (process_line contigs genes ec mmg st line).fusions.length = fs0.length ∧
    (∀ j : Nat, (process_line contigs genes ec mmg st line).fusions[j]? =
      (fs0[j]?).map (stage_result contigs genes ec mmg (done ++ [line]))) ∧
    (∀ (k : Nat × Int) (j : Nat), j ∈ (process_line contigs genes ec mmg st line).index k ↔
      (∃ f, fs0[j]? = some f ∧ fusion_skipped_in_index f = false ∧
        k ∈ fusion_index_keys f ∧
        evicted contigs genes ec mmg (done ++ [line]) k f = false)) := by
  unfold process_line
  cases hp : parse_line contigs genes line with
  | none =>
    have hsr : stage_result contigs genes ec mmg (done ++ [line]) =
        stage_result contigs genes ec mmg done := by
      funext f
      unfold stage_result
      rw [condemned_append, condemned_singleton]
      unfold line_condemns
      rw [hp]
      simp
    have hev : ∀ (k : Nat × Int) (f : fusion_t),
        evicted contigs genes ec mmg (done ++ [line]) k f =
          evicted contigs genes ec mmg done k f := by
      intro k f
      rw [evicted_append, evicted_singleton]
      unfold line_evicts
      rw [hp]
      simp
    refine ⟨h1, ?_, ?_⟩
    · intro j
      rw [hsr]
      exact h2 j
    · intro k j
      rw [h3 k j]
      constructor
      · rintro ⟨f, hf, hsk, hk, hevf⟩
        exact ⟨f, hf, hsk, hk, by rw [hev]; exact hevf⟩
      · rintro ⟨f, hf, hsk, hk, hevf⟩
        exact ⟨f, hf, hsk, hk, by rw [← hev k f]; exact hevf⟩
  | some p =>
    obtain ⟨i1, i2⟩ := p
    have hlink : ∀ (k : Nat × Int) (f : fusion_t),
        evicted contigs genes ec mmg done k f = true → k ∈ fusion_index_keys f →
        condemned contigs genes ec mmg done f = true := by
      intro k f hevt hkmem
      unfold evicted at hevt
      rw [List.any_eq_true] at hevt
      obtain ⟨l2, hl2, hle⟩ := hevt
      unfold condemned
      rw [List.any_eq_true]
      refine ⟨l2, hl2, ?_⟩
      unfold line_evicts at hle
      unfold line_condemns
      cases hq : parse_line contigs genes l2 with
      | none => rw [hq] at hle; exact Bool.noConfusion hle
      | some q =>
        obtain ⟨a, b⟩ := q
        rw [hq] at hle
        rw [Bool.and_eq_true] at hle
        obtain ⟨hcont, hmatch⟩ := hle
        rw [Bool.and_eq_true]
        refine ⟨?_, hmatch⟩
        rw [List.any_eq_true]
        refine ⟨k, (contains_iff_mem_pk _ k).mp hcont, ?_⟩
        exact (contains_iff_mem_pk _ k).mpr hkmem
    have h2a : ∀ j : Nat, st.fusions[j]? = (fs0[j]?).map (fun f =>
        if fusion_skipped_in_index f = false ∧
           (condemned contigs genes ec mmg done f = true ∨
             (([] : List (Nat × Int)).any (fun k => (fusion_index_keys f).contains k) = true ∧
               line_matches i1 i2 ec mmg f = true))
        then tag_fusion f else f) := by
      intro j
      rw [h2 j]
      cases hf0 : fs0[j]? with
      | none => rfl
      | some f =>
        rw [Option.map_some', Option.map_some']
        unfold stage_result
        congr 1
        apply if_congr _ rfl rfl
        simp
    have h3a : ∀ (k : Nat × Int) (j : Nat), j ∈ st.index k ↔ (∃ f, fs0[j]? = some f ∧
        fusion_skipped_in_index f = false ∧ k ∈ fusion_index_keys f ∧
        evicted contigs genes ec mmg done k f = false ∧
        ¬(k ∈ ([] : List (Nat × Int)) ∧ line_matches i1 i2 ec mmg f = true)) := by
      intro k j
      rw [h3 k j]
      constructor
      · rintro ⟨f, hf, hsk, hk, hevf⟩
        exact ⟨f, hf, hsk, hk, hevf, by simp⟩
      · rintro ⟨f, hf, hsk, hk, hevf, -⟩
        exact ⟨f, hf, hsk, hk, hevf⟩
    obtain ⟨g1, g2, g3⟩ := keys_fold i1 i2 ec mmg fs0
      (condemned contigs genes ec mmg done) (evicted contigs genes ec mmg done) hlink
      (line_query_keys i1 i2 mmg) [] st h1 h2a h3a
    refine ⟨g1, ?_, ?_⟩
    · intro j
      rw [g2 j]
      cases hf0 : fs0[j]? with
      | none => rfl
      | some f =>
        rw [Option.map_some', Option.map_some']
        unfold stage_result
        congr 1
        apply if_congr _ rfl rfl
        rw [condemned_append, condemned_singleton]
        unfold line_condemns
        rw [hp]
        simp only [List.nil_append, Bool.or_eq_true, Bool.and_eq_true]
    · intro k j
      rw [g3 k j]
      constructor
      · rintro ⟨f, hf, hsk, hk, hevf, hnm⟩
        refine ⟨f, hf, hsk, hk, ?_⟩
        rw [evicted_append, evicted_singleton]
        unfold line_evicts
        rw [hp]
        rw [Bool.or_eq_false_iff]
        refine ⟨hevf, ?_⟩
        rw [Bool.and_eq_false_iff]
        simp only [List.nil_append] at hnm
        by_cases hkq : k ∈ line_query_keys i1 i2 mmg
        · right
          rw [Bool.eq_false_iff]
          intro hL
          exact hnm ⟨hkq, hL⟩
        · left
          rw [Bool.eq_false_iff]
          intro hcont
          exact hkq ((contains_iff_mem_pk _ k).mp hcont)
      · rintro ⟨f, hf, hsk, hk, hevf⟩
        rw [evicted_append, evicted_singleton] at hevf
        unfold line_evicts at hevf
        rw [hp] at hevf
        rw [Bool.or_eq_false_iff] at hevf
        obtain ⟨hev1, hev2⟩ := hevf
        refine ⟨f, hf, hsk, hk, hev1, ?_⟩
        simp only [List.nil_append]
        rintro ⟨hkq, hL⟩
        rw [Bool.and_eq_false_iff] at hev2
        rcases hev2 with hc | hc
        · rw [Bool.eq_false_iff] at hc
          exact hc ((contains_iff_mem_pk _ k).mpr hkq)
        · rw [Bool.eq_false_iff] at hc
          exact hc hL

-- Folding process_line over the blacklist lines.
theorem lines_fold (contigs : contigs_t) (genes : genes_t) (ec : Rat) (mmg : Int)
    (fs0 : List fusion_t) (lines : List String) :
    ∀ (done : List String) (st : FilterState),
    st.fusions.length = fs0.length →
    (∀ j : Nat, st.fusions[j]? = (fs0[j]?).map (stage_result contigs genes ec mmg done)) →
    (∀ (k : Nat × Int) (j : Nat), j ∈ st.index k ↔ (∃ f, fs0[j]? = some f ∧
      fusion_skipped_in_index f = false ∧ k ∈ fusion_index_keys f ∧
      evicted contigs genes ec mmg done k f = false)) →
    ((lines.foldl (process_line contigs genes ec mmg) st).fusions.length = fs0.length ∧
     (∀ j : Nat, (lines.foldl (process_line contigs genes ec mmg) st).fusions[j]? =
       (fs0[j]?).map (stage_result contigs genes ec mmg (done ++ lines))) ∧
     (∀ (k : Nat × Int) (j : Nat),
       j ∈ (lines.foldl (process_line contigs genes ec mmg) st).index k ↔
       (∃ f, fs0[j]? = some f ∧ fusion_skipped_in_index f = false ∧
         k ∈ fusion_index_keys f ∧
         evicted contigs genes ec mmg (done ++ lines) k f = false))) := by
  induction lines with
  | nil =>
    intro done st h1 h2 h3
    simp only [List.foldl_nil, List.append_nil]
    exact ⟨h1, h2, h3⟩
  | cons line rest ih =>
    intro done st h1 h2 h3
    obtain ⟨g1, g2, g3⟩ := line_step contigs genes ec mmg fs0 done st line h1 h2 h3
    have h4 := ih (done ++ [line]) (process_line contigs genes ec mmg st line) g1 g2 g3
    simp only [List.foldl_cons]
    rw [show done ++ line :: rest = (done ++ [line]) ++ rest by simp]
    exact h4

theorem stage_result_nil (contigs : contigs_t) (genes : genes_t) (ec : Rat) (mmg : Int)
    (f : fusion_t) : stage_result contigs genes ec mmg [] f = f := by
  unfold stage_result
  simp [condemned]

-- Per-fusion characterisation of the whole stage: fusion j of the output is
-- fusion j of the input, tagged with the blacklist reason exactly when it was
-- index-eligible and some blacklist line condemns it.
theorem filter_char (fusions : List fusion_t) (lines : List String)
    (contigs : contigs_t) (genes : genes_t) (ec : Rat) (mmg : Int) :
    (filter_blacklisted_ranges fusions lines contigs genes ec mmg).1.length =
      fusions.length ∧
    (∀ j : Nat, (filter_blacklisted_ranges fusions lines contigs genes ec mmg).1[j]? =
      (fusions[j]?).map (stage_result contigs genes ec mmg lines)) := by
  have h2 : ∀ j : Nat, fusions[j]? =
      (fusions[j]?).map (stage_result contigs genes ec mmg []) := by
    intro j
    cases hf : fusions[j]? with
    | none => rfl
    | some f => rw [Option.map_some', stage_result_nil]
  have h3 : ∀ (k : Nat × Int) (j : Nat),
      j ∈ (FilterState.mk fusions (build_index fusions)).index k ↔
      (∃ f, fusions[j]? = some f ∧ fusion_skipped_in_index f = false ∧
        k ∈ fusion_index_keys f ∧ evicted contigs genes ec mmg [] k f = false) := by
    intro k j
    rw [show (FilterState.mk fusions (build_index fusions)).index k =
      build_index fusions k from rfl]
    rw [build_index_mem]
    constructor
    · rintro ⟨f, hf, hsk, hk⟩
      exact ⟨f, hf, hsk, hk, by simp [evicted]⟩
    · rintro ⟨f, hf, hsk, hk, -⟩
      exact ⟨f, hf, hsk, hk⟩
  obtain ⟨g1, g2, -⟩ := lines_fold contigs genes ec mmg fusions lines []
    (FilterState.mk fusions (build_index fusions)) rfl h2 h3
  simp only [List.nil_append] at g2
  exact ⟨g1, g2⟩

theorem filter_snd (fusions : List fusion_t) (lines : List String)
    (contigs : contigs_t) (genes : genes_t) (ec : Rat) (mmg : Int) :
    (filter_blacklisted_ranges fusions lines contigs genes ec mmg).2 =
      (filter_blacklisted_ranges fusions lines contigs genes ec mmg).1.countP
        (fun f => f.filter.isNone) := rfl

theorem stage_result_stage (contigs : contigs_t) (genes : genes_t) (ec : Rat) (mmg : Int)
    (lines : List String) (f : fusion_t) :
    stage_result contigs genes ec mmg lines (stage_result contigs genes ec mmg lines f) =
      stage_result contigs genes ec mmg lines f := by
  by_cases hc : (fusion_skipped_in_index f = false ∧
      condemned contigs genes ec mmg lines f = true)
  · rw [show stage_result contigs genes ec mmg lines f = tag_fusion f from by
      unfold stage_result; rw [if_pos hc]]
    unfold stage_result
    by_cases hskip2 : fusion_skipped_in_index (tag_fusion f) = false
    · rw [if_pos ⟨hskip2, by rw [condemned_tag]; exact hc.2⟩, tag_fusion_idem]
    · rw [if_neg (fun hand => hskip2 hand.1)]
  · rw [show stage_result contigs genes ec mmg lines f = f from by
      unfold stage_result; rw [if_neg hc]]
    unfold stage_result
    rw [if_neg hc]

/-- C6: running filter_blacklisted_ranges a second time on its own output, with
the same blacklist, catalogs and parameters, returns the same survivor count,
and changes no fusion record at all (in particular no filter tag changes to a
different value: matched fusions already carry the blacklist tag). -/
theorem c6_filter_idempotent (fusions : List fusion_t) (lines : List String)
    (contigs : contigs_t) (genes : genes_t) (ec : Rat) (mmg : Int) :
    (filter_blacklisted_ranges
        (filter_blacklisted_ranges fusions lines contigs genes ec mmg).1
        lines contigs genes ec mmg).2 =
      (filter_blacklisted_ranges fusions lines contigs genes ec mmg).2 ∧
    (filter_blacklisted_ranges
        (filter_blacklisted_ranges fusions lines contigs genes ec mmg).1
        lines contigs genes ec mmg).1 =
      (filter_blacklisted_ranges fusions lines contigs genes ec mmg).1 := by
  have hlist : (filter_blacklisted_ranges
      (filter_blacklisted_ranges fusions lines contigs genes ec mmg).1
      lines contigs genes ec mmg).1 =
      (filter_blacklisted_ranges fusions lines contigs genes ec mmg).1 := by
    apply List.ext_getElem?
    intro j
    rw [(filter_char (filter_blacklisted_ranges fusions lines contigs genes ec mmg).1
      lines contigs genes ec mmg).2 j]
    rw [(filter_char fusions lines contigs genes ec mmg).2 j]
    cases hf : fusions[j]? with
    | none => rfl
    | some f =>
      rw [Option.map_some', Option.map_some', stage_result_stage]
  refine ⟨?_, hlist⟩
  rw [filter_snd, filter_snd, hlist]

/-- C7: a blacklist line in which token 1 fails to compile, or token 1 compiles
and token 2 fails, is skipped entirely: running the filter with the line present
gives exactly the same result (all filter tags and the survivor count) as
running it without the line, so there is no partial application and the failure
is not fatal to the remaining lines. -/
theorem c7_malformed_line_skipped (fusions : List fusion_t) (lines1 lines2 : List String)
    (contigs : contigs_t) (genes : genes_t) (ec : Rat) (mmg : Int) (line : String)
    (hbad : parse_blacklist_item
        (String.mk (Iss.readToken { buf := line.toList, bad := false }).1)
        contigs genes false default = none ∨
      parse_blacklist_item
        (String.mk ((Iss.readToken { buf := line.toList, bad := false }).2.readToken).1)
        contigs genes true default = none) :
    filter_blacklisted_ranges fusions (lines1 ++ line :: lines2) contigs genes ec mmg =
      filter_blacklisted_ranges fusions (lines1 ++ lines2) contigs genes ec mmg := by
  have hpl : parse_line contigs genes line = none := by
    unfold parse_line
    cases hlc : line.toList with
    | nil => rfl
    | cons c rest =>
      rw [hlc] at hbad
      dsimp only
      by_cases hc : c = '#'
      · rw [if_pos hc]
      · rw [if_neg hc]
        rcases hbad with hb | hb
        · rw [hb]
        · cases hp1 : parse_blacklist_item
              (String.mk (Iss.readToken { buf := c :: rest, bad := false }).1)
              contigs genes false default with
          | none => rfl
          | some item1 =>
            rw [hb]
  have hskip : ∀ st : FilterState, process_line contigs genes ec mmg st line = st := by
    intro st
    unfold process_line
    rw [hpl]
  unfold filter_blacklisted_ranges
  dsimp only
  rw [List.foldl_append, List.foldl_cons, hskip, ← List.foldl_append]

/-- C9: filter_blacklisted_ranges creates and deletes no fusion record, and for
every fusion of the collection the output record is either identical to the
input record or identical except that its filter tag has been set to the
blacklist reason; every other field is preserved. -/
theorem c9_only_filter_tag_changes (fusions : List fusion_t) (lines : List String)
    (contigs : contigs_t) (genes : genes_t) (ec : Rat) (mmg : Int) (j : Nat) (f : fusion_t)
    (hj : fusions[j]? = some f) :
    (filter_blacklisted_ranges fusions lines contigs genes ec mmg).1.length =
      fusions.length ∧
    ((filter_blacklisted_ranges fusions lines contigs genes ec mmg).1[j]? = some f ∨
     (filter_blacklisted_ranges fusions lines contigs genes ec mmg).1[j]? =
       some { f with filter := blacklist_filter_tag }) := by
  obtain ⟨h1, h2⟩ := filter_char fusions lines contigs genes ec mmg
  refine ⟨h1, ?_⟩
  rw [h2 j, hj, Option.map_some']
  unfold stage_result
  by_cases hc : (fusion_skipped_in_index f = false ∧
      condemned contigs genes ec mmg lines f = true)
  · right
    rw [if_pos hc]
    rfl
  · left
    rw [if_neg hc]

/-- C10: a fusion entering the stage with its filter tag already set but with
the genomic-support marker present (closest_genomic_breakpoint1 >= 0) is
re-evaluated, and when some blacklist line condemns it its filter reason is
overwritten with the blacklist reason; a fusion with a set filter tag and
closest_genomic_breakpoint1 < 0 is never indexed and comes out completely
unchanged. -/
theorem c10_prefiltered_reeval (fusions : List fusion_t) (lines : List String)
    (contigs : contigs_t) (genes : genes_t) (ec : Rat) (mmg : Int) (j : Nat) (f : fusion_t)
    (hj : fusions[j]? = some f) (hfil : f.filter ≠ none) :
    (f.closest_genomic_breakpoint1 < 0 →
      (filter_blacklisted_ranges fusions lines contigs genes ec mmg).1[j]? = some f) ∧
    (0 ≤ f.closest_genomic_breakpoint1 →
      condemned contigs genes ec mmg lines f = true →
      (filter_blacklisted_ranges fusions lines contigs genes ec mmg).1[j]? =
        some { f with filter := blacklist_filter_tag }) := by
  obtain ⟨-, h2⟩ := filter_char fusions lines contigs genes ec mmg
  constructor
  · intro hneg
    rw [h2 j, hj, Option.map_some']
    unfold stage_result
    have hskip : fusion_skipped_in_index f = true := by
      unfold fusion_skipped_in_index
      rw [Option.isSome_iff_ne_none.mpr hfil, decide_eq_true hneg]
      rfl
    rw [if_neg (fun hand => by rw [hskip] at hand; exact Bool.noConfusion hand.1)]
  · intro hpos hcond
    rw [h2 j, hj, Option.map_some']
    unfold stage_result
    have hskip : fusion_skipped_in_index f = false := by
      unfold fusion_skipped_in_index
      rw [decide_eq_false (by omega : ¬(f.closest_genomic_breakpoint1 < 0))]
      simp
    rw [if_pos ⟨hskip, hcond⟩]
    rfl

/-- Witness for C7: the line "any chr1:5" has the keyword any as token 1, which
does not compile there, so the whole line is skipped. -/
theorem c7_witness :
    (parse_blacklist_item
        (String.mk (Iss.readToken { buf := ("any chr1:5").toList, bad := false }).1)
        sample_contigs [] false default = none ∨
     parse_blacklist_item
        (String.mk ((Iss.readToken
          { buf := ("any chr1:5").toList, bad := false }).2.readToken).1)
        sample_contigs [] true default = none) ∧
    filter_blacklisted_ranges [sample_fusion]
        ([] ++ ("any chr1:5") :: [("chr2:500001 any")]) sample_contigs [] 1 0 =
      filter_blacklisted_ranges [sample_fusion] ([] ++ [("chr2:500001 any")])
        sample_contigs [] 1 0 := by
  refine ⟨Or.inl (by rfl), ?_⟩
  exact c7_malformed_line_skipped [sample_fusion] [] [("chr2:500001 any")]
    sample_contigs [] 1 0 ("any chr1:5") (Or.inl (by rfl))

/-- Witness for C9 on a one-element collection. -/
theorem c9_witness :
    ([sample_fusion][0]? = some sample_fusion) ∧
    ((filter_blacklisted_ranges [sample_fusion] [("chr1:1001 any")]
        sample_contigs [] 1 0).1.length = [sample_fusion].length ∧
     ((filter_blacklisted_ranges [sample_fusion] [("chr1:1001 any")]
        sample_contigs [] 1 0).1[0]? = some sample_fusion ∨
      (filter_blacklisted_ranges [sample_fusion] [("chr1:1001 any")]
        sample_contigs [] 1 0).1[0]? =
        some { sample_fusion with filter := blacklist_filter_tag })) := by
  refine ⟨rfl, ?_⟩
  exact c9_only_filter_tag_changes [sample_fusion] [("chr1:1001 any")] sample_contigs []
    1 0 0 sample_fusion rfl

/-- Witness for C10: a pre-filtered fusion with the genomic-support marker is
re-tagged with the blacklist reason by a condemning line. -/
theorem c10_witness :
    ([{ sample_fusion with filter := some ("previous"),
                           closest_genomic_breakpoint1 := 500 }][0]? =
      some { sample_fusion with filter := some ("previous"),
                                closest_genomic_breakpoint1 := 500 }) ∧
    ({ sample_fusion with filter := some ("previous"),
                          closest_genomic_breakpoint1 := 500 } : fusion_t).filter ≠ none ∧
    (((0 : Int) ≤ ({ sample_fusion with filter := some ("previous"),
                                        closest_genomic_breakpoint1 := 500 } :
        fusion_t).closest_genomic_breakpoint1) ∧
     condemned sample_contigs [] 1 0 [("chr1:1001 any")]
       { sample_fusion with filter := some ("previous"),
                            closest_genomic_breakpoint1 := 500 } = true) ∧
    ((({ sample_fusion with filter := some ("previous"),
                            closest_genomic_breakpoint1 := 500 } :
        fusion_t).closest_genomic_breakpoint1 < 0 →
      (filter_blacklisted_ranges
        [{ sample_fusion with filter := some ("previous"),
                              closest_genomic_breakpoint1 := 500 }] [("chr1:1001 any")]
        sample_contigs [] 1 0).1[0]? =
        some { sample_fusion with filter := some ("previous"),
                                  closest_genomic_breakpoint1 := 500 }) ∧
     ((0 : Int) ≤ ({ sample_fusion with filter := some ("previous"),
                                        closest_genomic_breakpoint1 := 500 } :
        fusion_t).closest_genomic_breakpoint1 →
      condemned sample_contigs [] 1 0 [("chr1:1001 any")]
        { sample_fusion with filter := some ("previous"),
                             closest_genomic_breakpoint1 := 500 } = true →
      (filter_blacklisted_ranges
        [{ sample_fusion with filter := some ("previous"),
                              closest_genomic_breakpoint1 := 500 }] [("chr1:1001 any")]
        sample_contigs [] 1 0).1[0]? =
        some { { sample_fusion with filter := some ("previous"),
                                    closest_genomic_breakpoint1 := 500 } with
               filter := blacklist_filter_tag })) := by
  refine ⟨rfl, by simp, ⟨by norm_num, by rfl⟩, ?_⟩
  exact c10_prefiltered_reeval
    [{ sample_fusion with filter := some ("previous"),
                          closest_genomic_breakpoint1 := 500 }]
    [("chr1:1001 any")] sample_contigs [] 1 0 0
    { sample_fusion with filter := some ("previous"),
                         closest_genomic_breakpoint1 := 500 }
    rfl (by simp)
